import Mathlib

/-!
# Threads.cpp: worker tasks, status records and the polling monitor loop

A shallow embedding of `src/Threads.cpp`.

* `State`, `ThreadData` and the globals `gLock`, `gTCounter` are the data of the program.
* `coutMsg`, `reactOne`, `reactTwo`, `tick` are the sequential code of the monitor: the two
  `switch` statements of `main`, the `try`/`catch` around them and the counter test.
* `TaskOne`, `TaskTwo` are the worker bodies, as the sequence of operations they perform.
* `World`, `step`, `run` put the two workers and the monitor together: a schedule is a list of
  moves, each move lets one thread perform its next operation.

Conventions of the embedding.

* A `double` is kept abstract: the type `D`.  `Platform.count` stands for
  `std::chrono::duration<double, std::milli>(b - a).count()` and `Platform.fmt` for the text
  `operator<<` writes for a `double`.
* `std::cout` is the list of the texts written to it, one entry per output statement
  (`cout << a << b << endl` writes the single text `a ++ b ++ "\n"`).
* `gTCounter` is an `int`; it is modelled by `Int`.  The program has two tasks and each is counted
  at most once up and once down, so the machine range is never approached.
* An output statement may throw a `std::exception`; which ones do is given by `Faults`.  The
  write of the handler is an output statement like the others: when it throws, the exception
  leaves the `catch` block, the loop and `main`.  `noFaults` is the sink that never throws, which
  is `std::cout` as the program leaves it; a fault at the statement inside `coutMsg` also stands
  for `data.msg.str()` running out of memory while the lock is held.
* In `step` every operation of a worker is a move of its own, and the monitor's evaluation of a
  `switch` together with the case it selects is one move.  Every schedule of the embedding is
  therefore an execution of the program; the executions it leaves out are those in which a
  worker stores a state between the monitor's read of a record and its write-back.
-/

namespace Threads

/-! ## Data model -/

/-- The lifecycle state, `enum struct State` (line 22). -/
inductive State where
  | Error
  | None
  | Ready
  | Paused
  | Started
  | Running
  | Milestone
  | Done
  | Complete
  deriving DecidableEq, Repr

/-- The numeric value of each enumerator: `Error = -1`, then counting up from `None = 0`. -/
def State.toInt : State → Int
  | .Error => -1
  | .None => 0
  | .Ready => 1
  | .Paused => 2
  | .Started => 3
  | .Running => 4
  | .Milestone => 5
  | .Done => 6
  | .Complete => 7

/-- The states a worker stores and the monitor has to acknowledge. -/
def State.pending : State → Bool
  | .Started => true
  | .Milestone => true
  | .Done => true
  | _ => false

/-- The per-task record `struct ThreadData` (lines 23-27); `msg` is the text held by the
`std::stringstream`. -/
structure ThreadData (D : Type) where
  state : State
  elapsed : D
  msg : String
  deriving DecidableEq, Repr

/-- What the embedding takes from the C++ library about clocks and `double`. -/
structure Platform (D : Type) where
  /-- The value of `duration<double, std::milli>(b - a).count()` for two clock readings. -/
  count : Nat → Nat → D
  /-- The text written by `operator<<` for a `double`. -/
  fmt : D → String

/-- The data `main` works on: the two records, the globals `gLock` (true when held) and
`gTCounter`, the texts written to `std::cout`, and the local `running`. -/
structure Sys (D : Type) where
  oneData : ThreadData D
  twoData : ThreadData D
  gLock : Bool
  gTCounter : Int
  cout : List String
  running : Bool
  deriving DecidableEq, Repr

/-- How a piece of the monitor's code ends: it runs to its end, an exception carrying the text
of `what()` leaves it, or it never returns (it waits for `gLock`, which is held). -/
inductive Flow where
  | normal
  | thrown (what : String)
  | blocked
  deriving DecidableEq, Repr

/-- The output statements of the loop of `main`: those inside the `try` block and the one of
the handler. -/
inductive Site where
  | oneRunning
  | oneMsg
  | oneTook
  | oneComplete
  | twoRunning
  | twoMsg
  | twoTook
  | twoComplete
  | handler
  deriving DecidableEq, Repr

/-- For each output statement, whether it throws and with which `what()` text. -/
abbrev Faults := Site → Option String

/-- No output statement throws. -/
def noFaults : Faults := fun _ => none

/-! ## The monitor's sequential code -/

/-- One output statement `cout << text` at `site`: it throws when `f` says so (nothing is
written then), and appends `text` to the stream otherwise. -/
def put {D : Type} (f : Faults) (site : Site) (text : String) (s : Sys D) : Flow × Sys D :=
  match f site with
  | some w => (.thrown w, s)
  | none => (.normal, { s with cout := s.cout ++ [text] })

/-- The function `coutMsg` (lines 32-36): take `gLock`, write `data.msg.str()`, release `gLock`.
A throw between `lock` and `unlock` leaves the lock held. -/
def coutMsg {D : Type} (f : Faults) (site : Site) (data : ThreadData D) (s : Sys D) :
    Flow × Sys D :=
  if s.gLock then (.blocked, s)
  else
    let s1 := { s with gLock := true }
    match put f site data.msg s1 with
    | (.normal, s2) => (.normal, { s2 with gLock := false })
    | r => r

/-- The statement `switch( oneData.state )` of `main` (lines 98-118). -/
def reactOne {D : Type} (P : Platform D) (f : Faults) (s : Sys D) : Flow × Sys D :=
  match s.oneData.state with
  | .Started =>
    let s1 := { s with gTCounter := s.gTCounter + 1 }
    let s2 := { s1 with oneData := { s1.oneData with state := .Running } }
    put f .oneRunning "TaskOne Running\n" s2
  | .Milestone =>
    let s1 := { s with oneData := { s.oneData with state := .Running } }
    coutMsg f .oneMsg s1.oneData s1
  | .Done =>
    let s1 := { s with gTCounter := s.gTCounter - 1 }
    let s2 := { s1 with oneData := { s1.oneData with state := .Complete } }
    match put f .oneTook ("TaskOne Took " ++ P.fmt s2.oneData.elapsed ++ "ms\n") s2 with
    | (.normal, s3) => put f .oneComplete "TaskOne Complete\n" s3
    | r => r
  | _ => (.normal, s)

/-- The statement `switch( twoData.state )` of `main` (lines 120-139). -/
def reactTwo {D : Type} (P : Platform D) (f : Faults) (s : Sys D) : Flow × Sys D :=
  match s.twoData.state with
  | .Started =>
    let s1 := { s with gTCounter := s.gTCounter + 1 }
    let s2 := { s1 with twoData := { s1.twoData with state := .Running } }
    put f .twoRunning "TaskTwo Running\n" s2
  | .Milestone =>
    let s1 := { s with twoData := { s.twoData with state := .Running } }
    coutMsg f .twoMsg s1.twoData s1
  | .Done =>
    let s1 := { s with gTCounter := s.gTCounter - 1 }
    let s2 := { s1 with twoData := { s1.twoData with state := .Complete } }
    match put f .twoTook ("TaskTwo Took " ++ P.fmt s2.twoData.elapsed ++ "ms\n") s2 with
    | (.normal, s3) => put f .twoComplete "TaskTwo Complete\n" s3
    | r => r
  | _ => (.normal, s)

/-- The body of the `try` block (lines 94-139): the first `switch`, then the second one; a throw
in the first leaves the block at once. -/
def tryBody {D : Type} (P : Platform D) (f : Faults) (s : Sys D) : Flow × Sys D :=
  match reactOne P f s with
  | (.normal, s1) => reactTwo P f s1
  | r => r

/-- The handler `catch( std::exception& e ) { cout << e.what(); }` (lines 140-143): one output
statement, which writes the text of the exception or throws in its turn. -/
def handler {D : Type} (f : Faults) (what : String) (s : Sys D) : Flow × Sys D :=
  put f .handler what s

/-- The counter test that ends a tick (lines 146-148): `if( gTCounter < 1 ) running = false;`. -/
def loopTest {D : Type} (s : Sys D) : Sys D :=
  if s.gTCounter < 1 then { s with running := false } else s

/-- One pass of the loop body (lines 92-148), a tick: `yield`, the `try` block with its handler,
the counter test.  A tick that waits for `gLock` for ever does not reach the test, and neither
does a tick whose handler throws: that exception leaves the loop. -/
def tick {D : Type} (P : Platform D) (f : Faults) (s : Sys D) : Flow × Sys D :=
  match tryBody P f s with
  | (.normal, s1) => (.normal, loopTest s1)
  | (.thrown w, s1) =>
    match handler f w s1 with
    | (.normal, s2) => (.normal, loopTest s2)
    | r => r
  | (.blocked, s1) => (.blocked, s1)

/-- The loop of `main` and the statements after it (lines 91-151), run while no worker stores
anything: ticks as long as `running` holds, then `App Finished` is written and `main` returns
`0`.  `fuel` bounds the number of loop tests; the result is `none` when the bound is reached,
when a tick never ends, or when an exception leaves the loop. -/
def mainLoop {D : Type} (P : Platform D) (f : Faults) : Nat → Sys D → Option (Sys D × Int)
  | 0, _ => none
  | fuel + 1, s =>
    if s.running then
      match tick P f s with
      | (.normal, s1) => mainLoop P f fuel s1
      | _ => none
    else some ({ s with cout := s.cout ++ ["App Finished\n"] }, 0)

/-! ## The workers -/

/-- The operations a thread can perform on a record, and `sleep_for`. -/
inductive Effect (D : Type) where
  | storeState (s : State)
  | loadState
  | storeElapsed (d : D)
  | loadElapsed
  | appendMsg (text : String)
  | readMsg
  | sleep (ms : Nat)
  deriving DecidableEq, Repr

/-- The function `TaskOne` (lines 39-57) as the operations it performs, in program order;
`start`, `mid`, `finish` are the three readings of `high_resolution_clock::now()`. -/
def TaskOne {D : Type} (P : Platform D) (start mid finish : Nat) : List (Effect D) :=
  [ .storeState .Started,
    .sleep 2000,
    .appendMsg ("TaskOne 50 Percent at " ++ P.fmt (P.count start mid) ++ "ms\n"),
    .storeState .Milestone,
    .sleep 2000,
    .storeElapsed (P.count start finish),
    .storeState .Done ]

/-- The function `TaskTwo` (lines 59-76) as the operations it performs, in program order. -/
def TaskTwo {D : Type} (P : Platform D) (start mid finish : Nat) : List (Effect D) :=
  [ .storeState .Started,
    .sleep 1000,
    .appendMsg ("TaskTwo 50 Percent at " ++ P.fmt (P.count start mid) ++ "ms\n"),
    .storeState .Milestone,
    .sleep 1000,
    .storeElapsed (P.count start finish),
    .storeState .Done ]

/-- Whether the operation touches the record at all (`sleep_for` does not). -/
def Effect.onRecord {D : Type} : Effect D → Bool
  | .sleep _ => false
  | _ => true

/-- Whether the operation is a store to `state`. -/
def Effect.isStore {D : Type} : Effect D → Bool
  | .storeState _ => true
  | _ => false

/-- Whether the operation reads `state`. -/
def Effect.isLoadState {D : Type} : Effect D → Bool
  | .loadState => true
  | _ => false

/-- Whether the operation appends to the message buffer. -/
def Effect.isAppend {D : Type} : Effect D → Bool
  | .appendMsg _ => true
  | _ => false

/-- The record after the operation. -/
def Effect.apply {D : Type} : Effect D → ThreadData D → ThreadData D
  | .storeState s, r => { r with state := s }
  | .storeElapsed d, r => { r with elapsed := d }
  | .appendMsg t, r => { r with msg := r.msg ++ t }
  | _, r => r

/-- The states stored by the operations of a program, in order. -/
def stores {D : Type} (l : List (Effect D)) : List State :=
  l.filterMap fun e =>
    match e with
    | .storeState st => some st
    | _ => none

/-- The record after a worker has performed all the operations of `l`, with nobody else
touching it. -/
def runAlone {D : Type} (l : List (Effect D)) (r : ThreadData D) : ThreadData D :=
  l.foldl (fun acc e => e.apply acc) r

/-! ## Workers and monitor together -/

/-- The two worker threads. -/
inductive Worker where
  | one
  | two
  deriving DecidableEq, Repr

/-- Who performs the next operation. -/
inductive Move where
  | worker (t : Worker)
  | monitor
  deriving DecidableEq, Repr

/-- Where `main` stands: before the first `switch`, before the second one, before the counter
test, after the loop, returned, or left by an exception (the process is terminated). -/
inductive MonPc where
  | one
  | two
  | test
  | after
  | returned
  | aborted
  deriving DecidableEq, Repr

/-- What is recorded of an execution: a worker's store to `state`, and the state the monitor
found when it evaluated the `switch` on a record. -/
inductive Event where
  | wrote (t : Worker) (s : State)
  | polled (t : Worker) (seen : State)
  deriving DecidableEq, Repr

/-- The whole program: the data of `main`, what each worker still has to do, the position of
`main`, its return value once it has returned, and the history of the execution. -/
structure World (D : Type) where
  sys : Sys D
  todoOne : List (Effect D)
  todoTwo : List (Effect D)
  pc : MonPc
  exitCode : Option Int
  log : List Event
  deriving DecidableEq, Repr

/-- The clock readings of one worker. -/
structure Clocks where
  start : Nat
  mid : Nat
  finish : Nat
  deriving DecidableEq, Repr

/-- The program when `main` enters its loop (line 91) with both records in state `None`: the
buffers are empty, `elapsed` holds whatever it was created with, both threads exist and have
done nothing yet, `"loop running"` has been written. -/
def World.boot {D : Type} (P : Platform D) (e1 e2 : D) (k1 k2 : Clocks) : World D :=
  { sys :=
      { oneData := { state := .None, elapsed := e1, msg := "" }
        twoData := { state := .None, elapsed := e2, msg := "" }
        gLock := false
        gTCounter := 0
        cout := ["loop running\n"]
        running := true }
    todoOne := TaskOne P k1.start k1.mid k1.finish
    todoTwo := TaskTwo P k2.start k2.mid k2.finish
    pc := .one
    exitCode := none
    log := [] }

/-- The record of a worker. -/
def World.record {D : Type} (w : World D) : Worker → ThreadData D
  | .one => w.sys.oneData
  | .two => w.sys.twoData

/-- What a worker still has to do. -/
def World.todo {D : Type} (w : World D) : Worker → List (Effect D)
  | .one => w.todoOne
  | .two => w.todoTwo

/-- The history entry an operation of worker `t` leaves. -/
def Effect.events {D : Type} (t : Worker) : Effect D → List Event
  | .storeState s => [.wrote t s]
  | _ => []

/-- Worker `t` performs its next operation `e`, the rest of its program being `rest`. -/
def World.perform {D : Type} (w : World D) (t : Worker) (e : Effect D) (rest : List (Effect D)) :
    World D :=
  match t with
  | .one =>
    { w with
      sys := { w.sys with oneData := e.apply w.sys.oneData }
      todoOne := rest
      log := w.log ++ e.events .one }
  | .two =>
    { w with
      sys := { w.sys with twoData := e.apply w.sys.twoData }
      todoTwo := rest
      log := w.log ++ e.events .two }

/-- One move of the program.  `none` means the move is not possible: the thread has finished,
`main` has returned or was left by an exception (the process is gone), the monitor waits for
`gLock`, or, for a worker `t` with `d t` set, the move would break the polling discipline.  A
reaction that throws and the handler that catches it are one move.

The polling discipline for `t`: the worker stores a new state only after the monitor has polled
the previous one, that is, not while the record holds a state that awaits its acknowledgment.
Each `switch` with the case it selects is one move, so no store falls between the monitor's read
of a state and its write-back. -/
def step {D : Type} (P : Platform D) (f : Faults) (d : Worker → Bool) (m : Move) (w : World D) :
    Option (World D) :=
  if w.pc = .returned ∨ w.pc = .aborted then none
  else
    match m with
    | .worker t =>
      match w.todo t with
      | [] => none
      | e :: rest =>
        if d t && e.isStore && (w.record t).state.pending then none
        else some (w.perform t e rest)
    | .monitor =>
      match w.pc with
      | .one =>
        match reactOne P f w.sys with
        | (.normal, s) =>
          some { w with sys := s, pc := .two, log := w.log ++ [.polled .one w.sys.oneData.state] }
        | (.thrown x, s) =>
          match handler f x s with
          | (.normal, s2) =>
            some { w with
                   sys := s2, pc := .test
                   log := w.log ++ [.polled .one w.sys.oneData.state] }
          | (_, s2) =>
            some { w with
                   sys := s2, pc := .aborted
                   log := w.log ++ [.polled .one w.sys.oneData.state] }
        | (.blocked, _) => none
      | .two =>
        match reactTwo P f w.sys with
        | (.normal, s) =>
          some { w with sys := s, pc := .test, log := w.log ++ [.polled .two w.sys.twoData.state] }
        | (.thrown x, s) =>
          match handler f x s with
          | (.normal, s2) =>
            some { w with
                   sys := s2, pc := .test
                   log := w.log ++ [.polled .two w.sys.twoData.state] }
          | (_, s2) =>
            some { w with
                   sys := s2, pc := .aborted
                   log := w.log ++ [.polled .two w.sys.twoData.state] }
        | (.blocked, _) => none
      | .test =>
        let s := loopTest w.sys
        some { w with sys := s, pc := if s.running then .one else .after }
      | .after =>
        some { w with
               sys := { w.sys with cout := w.sys.cout ++ ["App Finished\n"] }
               pc := .returned
               exitCode := some 0 }
      | .returned => none
      | .aborted => none

/-- The program after a schedule, a list of moves taken in order. -/
def run {D : Type} (P : Platform D) (f : Faults) (d : Worker → Bool) :
    List Move → World D → Option (World D)
  | [], w => some w
  | m :: ms, w => (step P f d m w).bind (run P f d ms)

/-- No worker is held to the polling discipline: every interleaving of the workers' operations
with the monitor's moves is allowed. -/
def free : Worker → Bool := fun _ => false

/-- Every worker keeps the polling discipline. -/
def everyone : Worker → Bool := fun _ => true

/-- Only worker `t` is held to the polling discipline. -/
def only (t : Worker) : Worker → Bool := fun u => decide (u = t)

/-! ## The state-transition table of the specification -/

/-- The write-back column of the table: `Started` and `Milestone` are acknowledged as `Running`,
`Done` as `Complete`, every other state is left as it is. -/
def ack : State → State
  | .Started => .Running
  | .Milestone => .Running
  | .Done => .Complete
  | st => st

/-- The counter column of the table: up by one on `Started`, down by one on `Done`. -/
def delta : State → Int
  | .Started => 1
  | .Done => -1
  | _ => 0

/-- The action column of the table for task one: the texts written for a record found in its
current state. -/
def noticesOne {D : Type} (P : Platform D) (r : ThreadData D) : List String :=
  match r.state with
  | .Started => ["TaskOne Running\n"]
  | .Milestone => [r.msg]
  | .Done => ["TaskOne Took " ++ P.fmt r.elapsed ++ "ms\n", "TaskOne Complete\n"]
  | _ => []

/-- The action column of the table for task two. -/
def noticesTwo {D : Type} (P : Platform D) (r : ThreadData D) : List String :=
  match r.state with
  | .Started => ["TaskTwo Running\n"]
  | .Milestone => [r.msg]
  | .Done => ["TaskTwo Took " ++ P.fmt r.elapsed ++ "ms\n", "TaskTwo Complete\n"]
  | _ => []

/-! ## Reading the history of an execution -/

/-- The states worker `t` has stored so far, in order. -/
def writes (t : Worker) (log : List Event) : List State :=
  log.filterMap fun e =>
    match e with
    | .wrote u st => if u = t then some st else none
    | _ => none

/-- The reactions that fired for task `t`, in order: the states awaiting acknowledgment that
the monitor found on the record of `t`.  By the reaction table each entry `Started` is a counter
increment with the `Running` notice, each `Milestone` a flush of the message buffer, each `Done`
a counter decrement with the `Took` and `Complete` notices. -/
def acks (t : Worker) (log : List Event) : List State :=
  log.filterMap fun e =>
    match e with
    | .polled u st => if u = t ∧ st.pending = true then some st else none
    | _ => none

/-- How many times the reaction for state `st` fired for task `t`. -/
def fired (t : Worker) (st : State) (log : List Event) : Nat :=
  (acks t log).count st

/-- The state the monitor left in a record after the reactions `l`: `None` before any reaction,
the write-back of the last one otherwise. -/
def lastAck (l : List State) : State :=
  match l.getLast? with
  | none => .None
  | some st => ack st

/-- Whether a record is in one of `Running`, `Milestone`, `Done`, as a number. -/
def live : State → Int
  | .Running => 1
  | .Milestone => 1
  | .Done => 1
  | _ => 0

/-- Whether the monitor has performed the `Started` reaction for `t` but not yet the `Done`
reaction, as a number. -/
def inFlight (t : Worker) (log : List Event) : Int :=
  if 0 < fired t .Started log ∧ fired t .Done log = 0 then 1 else 0

/-- The history of task `t` under the polling discipline: what the worker has stored and what
it still has to store are together `Started`, `Milestone`, `Done`; and either every store has
been acknowledged and the record holds the last write-back, or all but the latest store have
been acknowledged and the record still holds that latest state. -/
def Tracked {D : Type} (t : Worker) (w : World D) : Prop :=
  writes t w.log ++ stores (w.todo t) = [.Started, .Milestone, .Done] ∧
  ((writes t w.log = acks t w.log ∧ (w.record t).state = lastAck (acks t w.log)) ∨
   ((w.record t).state.pending = true ∧
    writes t w.log = acks t w.log ++ [(w.record t).state]))

/-- The counter agrees with the records: it is the number of records in `Running`, `Milestone`
or `Done`. -/
def Counted {D : Type} (w : World D) : Prop :=
  w.sys.gTCounter = live w.sys.oneData.state + live w.sys.twoData.state

/-- The texts the table has the monitor write for the record `r` of task `t`. -/
def notices {D : Type} (P : Platform D) (t : Worker) (r : ThreadData D) : List String :=
  match t with
  | .one => noticesOne P r
  | .two => noticesTwo P r

/-- Whether an output text belongs to the task with the given label: it starts with it. -/
def owned (label text : String) : Bool :=
  label.toList.isPrefixOf text.toList

/-- The output of the task with the given label, in the order it was written. -/
def linesOf (label : String) (out : List String) : List String :=
  out.filter (owned label)

/-! ## The output of the program -/

/-- The program of each worker in `World.boot`. -/
def program {D : Type} (P : Platform D) (k1 k2 : Clocks) : Worker → List (Effect D)
  | .one => TaskOne P k1.start k1.mid k1.finish
  | .two => TaskTwo P k2.start k2.mid k2.finish

/-- The label of each task in the output. -/
def label : Worker → String
  | .one => "TaskOne"
  | .two => "TaskTwo"

/-- The milestone line each worker appends to its message buffer. -/
def milestoneLine {D : Type} (P : Platform D) (k1 k2 : Clocks) : Worker → String
  | .one => "TaskOne 50 Percent at " ++ P.fmt (P.count k1.start k1.mid) ++ "ms\n"
  | .two => "TaskTwo 50 Percent at " ++ P.fmt (P.count k2.start k2.mid) ++ "ms\n"

/-- The total duration each worker stores in `elapsed`. -/
def total {D : Type} (P : Platform D) (k1 k2 : Clocks) : Worker → D
  | .one => P.count k1.start k1.finish
  | .two => P.count k2.start k2.finish

/-- The texts a task is due for a reaction that fired: the `Running` line for `Started`, the
milestone line for `Milestone`, the `Took` and `Complete` lines for `Done`. -/
def expected {D : Type} (P : Platform D) (k1 k2 : Clocks) : Worker → State → List String
  | .one, .Started => ["TaskOne Running\n"]
  | .one, .Milestone => ["TaskOne 50 Percent at " ++ P.fmt (P.count k1.start k1.mid) ++ "ms\n"]
  | .one, .Done =>
    ["TaskOne Took " ++ P.fmt (P.count k1.start k1.finish) ++ "ms\n", "TaskOne Complete\n"]
  | .two, .Started => ["TaskTwo Running\n"]
  | .two, .Milestone => ["TaskTwo 50 Percent at " ++ P.fmt (P.count k2.start k2.mid) ++ "ms\n"]
  | .two, .Done =>
    ["TaskTwo Took " ++ P.fmt (P.count k2.start k2.finish) ++ "ms\n", "TaskTwo Complete\n"]
  | _, _ => []

/-- Program order seen from the record of task `t`: the worker has performed the first `k`
operations of its program; the message buffer is empty before the append and holds the
milestone line after it; `elapsed` holds the total duration once it has been stored; the record
can be in `Milestone` only after the append and in `Done` only at the end of the program. -/
def InOrder {D : Type} (P : Platform D) (k1 k2 : Clocks) (t : Worker) (w : World D) : Prop :=
  ∃ k, w.todo t = (program P k1 k2 t).drop k ∧
    (w.record t).msg = (if k ≤ 2 then "" else milestoneLine P k1 k2 t) ∧
    (6 ≤ k → (w.record t).elapsed = total P k1 k2 t) ∧
    ((w.record t).state = .Milestone → 4 ≤ k) ∧
    ((w.record t).state = .Done → 7 ≤ k)

/-- The output so far is what the reactions that fired have written: the lock is free, the
texts of each task are those due for its reactions, in order, and once `main` has returned the
last text is `App Finished` and the return value is `0`. -/
def Output {D : Type} (P : Platform D) (k1 k2 : Clocks) (w : World D) : Prop :=
  w.sys.gLock = false ∧
  (∀ t, linesOf (label t) w.sys.cout = (acks t w.log).flatMap (expected P k1 k2 t)) ∧
  (w.pc = .returned → w.sys.cout.getLast? = some "App Finished\n" ∧ w.exitCode = some 0)

/-! ## Sample data for evaluation -/

/-- A concrete platform for evaluation: a `double` is a whole number of milliseconds and its
text is a fixed placeholder. -/
def demo : Platform Nat :=
  { count := fun a b => b - a
    fmt := fun d => if d < 3000 then "2000" else "4000" }

/-- A record in state `st` with elapsed time `4000` and the milestone text of task one. -/
def sampleOne (st : State) : ThreadData Nat :=
  { state := st, elapsed := 4000, msg := "TaskOne 50 Percent at 2000ms\n" }

/-- A record in state `st` with elapsed time `2000` and the milestone text of task two. -/
def sampleTwo (st : State) : ThreadData Nat :=
  { state := st, elapsed := 2000, msg := "TaskTwo 50 Percent at 2000ms\n" }

/-- The data of `main` with the two records in the given states, the lock free, the counter at
`c` and nothing written yet. -/
def sampleSys (a b : State) (c : Int) : Sys Nat :=
  { oneData := sampleOne a, twoData := sampleTwo b, gLock := false, gTCounter := c, cout := []
    running := true }

/-- The clock readings used for evaluation: task one measures 2000 ms and 4000 ms. -/
def clocksOne : Clocks := { start := 0, mid := 2000, finish := 4000 }

/-- The clock readings used for evaluation: task two measures 1000 ms and 2000 ms. -/
def clocksTwo : Clocks := { start := 0, mid := 1000, finish := 2000 }

/-- The program at the start of the loop, on the sample platform. -/
def demoBoot : World Nat := World.boot demo 0 0 clocksOne clocksTwo

/-- A schedule in which the loop runs one tick before any worker has stored anything, and
`main` returns. -/
def earlyExit : List Move := [.monitor, .monitor, .monitor, .monitor]

/-- A schedule in which worker one runs to its end, every store polled in time, and worker two
never performs anything. -/
def oneAlone : List Move :=
  [ .worker .one, .monitor, .monitor, .monitor,
    .worker .one, .worker .one, .worker .one, .monitor, .monitor, .monitor,
    .worker .one, .worker .one, .worker .one, .monitor, .monitor, .monitor,
    .monitor ]

/-- A schedule in which worker one stores `Started` right after the monitor has looked at its
record in the first tick. -/
def lateStart : List Move := [.monitor, .worker .one, .monitor, .monitor, .monitor]

/-- Worker one performs its whole program without the monitor running. -/
def oneUnseen : List Move :=
  [.worker .one, .worker .one, .worker .one, .worker .one, .worker .one, .worker .one,
   .worker .one]

/-- Worker two performs its whole program without the monitor running. -/
def twoUnseen : List Move :=
  [.worker .two, .worker .two, .worker .two, .worker .two, .worker .two, .worker .two,
   .worker .two]

/-- A schedule in which both workers run to their end, every store polled in time, and `main`
returns. -/
def fullRun : List Move :=
  [ .worker .one, .worker .two, .monitor, .monitor, .monitor,
    .worker .one, .worker .one, .worker .one, .worker .two, .worker .two, .worker .two,
    .monitor, .monitor, .monitor,
    .worker .two, .worker .two, .worker .two, .monitor, .monitor, .monitor,
    .worker .one, .worker .one, .worker .one, .monitor, .monitor, .monitor,
    .monitor ]

/-- A schedule in which worker one keeps the polling discipline and worker two does not: it
stores `Milestone` over a `Started` the monitor has not seen. -/
def mixedRun : List Move :=
  [ .worker .one, .monitor,
    .worker .two, .worker .two, .worker .two, .worker .two,
    .monitor, .monitor,
    .worker .one, .worker .one, .worker .one, .monitor, .monitor, .monitor,
    .worker .one, .worker .one, .worker .one, .monitor, .monitor, .monitor,
    .monitor ]

/-- The program at the end of `mixedRun`. -/
def mixed : World Nat :=
  (run demo noFaults (only .one) mixedRun demoBoot).getD demoBoot

/-- The program after worker one has stored `Started` and the monitor has reacted to it. -/
def firstPoll : World Nat :=
  (run demo noFaults everyone [.worker .one, .monitor] demoBoot).getD demoBoot

/-- The program at the end of `fullRun`. -/
def finished : World Nat :=
  (run demo noFaults everyone fullRun demoBoot).getD demoBoot

/-- The statement inside `coutMsg( oneData )` throws `std::bad_alloc` (the copy made by
`data.msg.str()` finds no memory), no other statement does. -/
def faultOneMsg : Faults := fun site =>
  match site with
  | .oneMsg => some "std::bad_alloc"
  | _ => none

/-- The statement inside `coutMsg( twoData )` throws `std::bad_alloc`, no other statement
does. -/
def faultTwoMsg : Faults := fun site =>
  match site with
  | .twoMsg => some "std::bad_alloc"
  | _ => none

/-- The stream is broken and set to throw: the statement `cout << "TaskOne Running" << endl`
throws, and so does the write of the handler. -/
def faultStream : Faults := fun site =>
  match site with
  | .oneRunning => some "basic_ios::clear"
  | .handler => some "basic_ios::clear"
  | _ => none

/-! ## Basic facts about the reactions -/

/-- What the first `switch` does to the records, the counter, the lock-independent data: the
record of task one gets the write-back of the table, the counter moves by the table's amount,
nothing else of the data changes, whatever the sink does. -/
theorem reactOne_data {D : Type} (P : Platform D) (f : Faults) (s : Sys D) :
    (reactOne P f s).2.oneData = { s.oneData with state := ack s.oneData.state } ∧
    (reactOne P f s).2.twoData = s.twoData ∧
    (reactOne P f s).2.gTCounter = s.gTCounter + delta s.oneData.state ∧
    (reactOne P f s).2.running = s.running := by
  obtain ⟨⟨st1, e1, m1⟩, two, lk, c, out, r⟩ := s
  cases st1 <;> simp only [reactOne, put, coutMsg, ack, delta]
  case Started => cases f .oneRunning <;> simp
  case Milestone => cases lk <;> cases f .oneMsg <;> simp
  case Done => cases f .oneTook <;> cases f .oneComplete <;> simp <;> rfl
  all_goals simp

/-- What the second `switch` does to the data, whatever the sink does. -/
theorem reactTwo_data {D : Type} (P : Platform D) (f : Faults) (s : Sys D) :
    (reactTwo P f s).2.twoData = { s.twoData with state := ack s.twoData.state } ∧
    (reactTwo P f s).2.oneData = s.oneData ∧
    (reactTwo P f s).2.gTCounter = s.gTCounter + delta s.twoData.state ∧
    (reactTwo P f s).2.running = s.running := by
  obtain ⟨one, ⟨st2, e2, m2⟩, lk, c, out, r⟩ := s
  cases st2 <;> simp only [reactTwo, put, coutMsg, ack, delta]
  case Started => cases f .twoRunning <;> simp
  case Milestone => cases lk <;> cases f .twoMsg <;> simp
  case Done => cases f .twoTook <;> cases f .twoComplete <;> simp <;> rfl
  all_goals simp

/-- With a sink that does not throw and the lock free, the first `switch` runs to its end and
does what the table says. -/
theorem reactOne_noFaults {D : Type} (P : Platform D) (s : Sys D) (h : s.gLock = false) :
    reactOne P noFaults s =
      (.normal, { s with
        oneData := { s.oneData with state := ack s.oneData.state }
        gTCounter := s.gTCounter + delta s.oneData.state
        cout := s.cout ++ noticesOne P s.oneData }) := by
  obtain ⟨⟨st1, e1, m1⟩, two, lk, c, out, r⟩ := s
  simp only at h
  subst h
  cases st1 <;> simp [reactOne, put, coutMsg, noFaults, ack, delta, noticesOne]
  rfl

/-- With a sink that does not throw and the lock free, the second `switch` runs to its end
and does what the table says. -/
theorem reactTwo_noFaults {D : Type} (P : Platform D) (s : Sys D) (h : s.gLock = false) :
    reactTwo P noFaults s =
      (.normal, { s with
        twoData := { s.twoData with state := ack s.twoData.state }
        gTCounter := s.gTCounter + delta s.twoData.state
        cout := s.cout ++ noticesTwo P s.twoData }) := by
  obtain ⟨one, ⟨st2, e2, m2⟩, lk, c, out, r⟩ := s
  simp only at h
  subst h
  cases st2 <;> simp [reactTwo, put, coutMsg, noFaults, ack, delta, noticesTwo]
  rfl

/-- With a sink that does not throw and the lock free, a tick is the two reactions of the table
followed by the counter test. -/
theorem tick_noFaults {D : Type} (P : Platform D) (s : Sys D) (h : s.gLock = false) :
    tick P noFaults s =
      (.normal, loopTest { s with
        oneData := { s.oneData with state := ack s.oneData.state }
        twoData := { s.twoData with state := ack s.twoData.state }
        gTCounter := s.gTCounter + delta s.oneData.state + delta s.twoData.state
        cout := s.cout ++ noticesOne P s.oneData ++ noticesTwo P s.twoData }) := by
  simp only [tick, tryBody, reactOne_noFaults P s h]
  rw [reactTwo_noFaults P _ (by simpa using h)]

/-- On a record that is not in `Started`, `Milestone` or `Done` the first `switch` selects no
case. -/
theorem reactOne_idle {D : Type} (P : Platform D) (f : Faults) (s : Sys D)
    (h : s.oneData.state.pending = false) : reactOne P f s = (.normal, s) := by
  obtain ⟨⟨st1, e1, m1⟩, two, lk, c, out, r⟩ := s
  cases st1 <;> simp_all [reactOne, State.pending]

/-- On a record that is not in `Started`, `Milestone` or `Done` the second `switch` selects no
case. -/
theorem reactTwo_idle {D : Type} (P : Platform D) (f : Faults) (s : Sys D)
    (h : s.twoData.state.pending = false) : reactTwo P f s = (.normal, s) := by
  obtain ⟨one, ⟨st2, e2, m2⟩, lk, c, out, r⟩ := s
  cases st2 <;> simp_all [reactTwo, State.pending]

/-- The counter test touches nothing but `running`, and repeating it changes nothing. -/
theorem loopTest_idem {D : Type} (s : Sys D) : loopTest (loopTest s) = loopTest s := by
  unfold loopTest
  split_ifs <;> simp_all

/-- An acknowledged state needs no acknowledgment. -/
theorem ack_pending (st : State) :
    (ack st).pending = false ∧ ack (ack st) = ack st ∧ delta (ack st) = 0 := by
  cases st <;> exact ⟨rfl, rfl, rfl⟩

/-! ## Basic facts about moves -/

/-- The handler changes nothing of the records, the counter, the lock and `running`, and it
never waits. -/
theorem handler_data {D : Type} (f : Faults) (what : String) (s : Sys D) :
    (handler f what s).2.oneData = s.oneData ∧ (handler f what s).2.twoData = s.twoData ∧
    (handler f what s).2.gTCounter = s.gTCounter ∧ (handler f what s).2.gLock = s.gLock ∧
    (handler f what s).2.running = s.running ∧ (handler f what s).1 ≠ .blocked := by
  unfold handler put
  cases f .handler <;> simp

/-- What one move does to the records, the programs, the history and the counter, whatever the
sink does: either a worker performs its next operation on its own record (a store only when the
discipline allows it), or the monitor reacts on one record by the table, or nothing of these
changes (the counter test, the last statements of `main`). -/
theorem step_summary {D : Type} (P : Platform D) (f : Faults) (d : Worker → Bool) (m : Move)
    (w w' : World D) (h : step P f d m w = some w') :
    (∃ t e rest, w.todo t = e :: rest ∧
      (d t = true → e.isStore = true → (w.record t).state.pending = false) ∧
      w'.record t = e.apply (w.record t) ∧ w'.todo t = rest ∧ w'.log = w.log ++ e.events t ∧
      (∀ u, u ≠ t → w'.record u = w.record u ∧ w'.todo u = w.todo u) ∧
      w'.sys.gTCounter = w.sys.gTCounter) ∨
    (∃ t, w'.record t = { w.record t with state := ack (w.record t).state } ∧
      w'.log = w.log ++ [.polled t (w.record t).state] ∧
      (∀ u, w'.todo u = w.todo u) ∧ (∀ u, u ≠ t → w'.record u = w.record u) ∧
      w'.sys.gTCounter = w.sys.gTCounter + delta (w.record t).state) ∨
    ((∀ u, w'.record u = w.record u ∧ w'.todo u = w.todo u) ∧ w'.log = w.log ∧
      w'.sys.gTCounter = w.sys.gTCounter) := by
  unfold step at h
  split_ifs at h with hr
  cases m with
  | worker t =>
    left
    simp only at h
    cases hl : w.todo t with
    | nil => simp [hl] at h
    | cons e rest =>
      simp only [hl] at h
      split_ifs at h with hg
      simp only [Option.some.injEq] at h
      subst h
      refine ⟨t, e, rest, hl, ?_, ?_, ?_, ?_, ?_, ?_⟩
      · intro h1 h2
        simp only [h1, h2, Bool.and_self, Bool.true_and, Bool.not_eq_true] at hg
        exact hg
      · cases t <;> rfl
      · cases t <;> rfl
      · cases t <;> rfl
      · intro u hu
        cases t <;> cases u <;> first | exact absurd rfl hu | exact ⟨rfl, rfl⟩
      · cases t <;> rfl
  | monitor =>
    right
    simp only at h
    cases hp : w.pc with
    | one =>
      left
      simp only [hp] at h
      have hd := reactOne_data P f w.sys
      rcases hr1 : reactOne P f w.sys with ⟨fl, s⟩
      rw [hr1] at h hd
      simp only at hd
      have key : ∀ (s2 : Sys D) (q : MonPc), s2.oneData = s.oneData → s2.twoData = s.twoData →
          s2.gTCounter = s.gTCounter →
          w' = { w with
                 sys := s2, pc := q, log := w.log ++ [.polled .one w.sys.oneData.state] } →
          w'.record .one = { w.record .one with state := ack (w.record .one).state } ∧
          w'.log = w.log ++ [.polled .one (w.record .one).state] ∧
          (∀ u, w'.todo u = w.todo u) ∧ (∀ u, u ≠ .one → w'.record u = w.record u) ∧
          w'.sys.gTCounter = w.sys.gTCounter + delta (w.record .one).state := by
        intro s2 q e1 e2 e3 hw
        subst hw
        refine ⟨e1.trans hd.1, rfl, fun u => by cases u <;> rfl, ?_, e3.trans hd.2.2.1⟩
        intro u hu
        cases u
        · exact absurd rfl hu
        · exact e2.trans hd.2.1
      refine ⟨.one, ?_⟩
      cases fl with
      | normal =>
        simp only [Option.some.injEq] at h
        exact key s .two rfl rfl rfl h.symm
      | thrown x =>
        simp only at h
        have hh := handler_data f x s
        rcases hh2 : handler f x s with ⟨fl2, s2⟩
        rw [hh2] at h hh
        simp only at hh
        cases fl2 <;> simp only [Option.some.injEq] at h
        · exact key s2 .test hh.1 hh.2.1 hh.2.2.1 h.symm
        · exact key s2 .aborted hh.1 hh.2.1 hh.2.2.1 h.symm
        · exact key s2 .aborted hh.1 hh.2.1 hh.2.2.1 h.symm
      | blocked => exact absurd h (by simp)
    | two =>
      left
      simp only [hp] at h
      have hd := reactTwo_data P f w.sys
      rcases hr1 : reactTwo P f w.sys with ⟨fl, s⟩
      rw [hr1] at h hd
      simp only at hd
      have key : ∀ (s2 : Sys D) (q : MonPc), s2.oneData = s.oneData → s2.twoData = s.twoData →
          s2.gTCounter = s.gTCounter →
          w' = { w with
                 sys := s2, pc := q, log := w.log ++ [.polled .two w.sys.twoData.state] } →
          w'.record .two = { w.record .two with state := ack (w.record .two).state } ∧
          w'.log = w.log ++ [.polled .two (w.record .two).state] ∧
          (∀ u, w'.todo u = w.todo u) ∧ (∀ u, u ≠ .two → w'.record u = w.record u) ∧
          w'.sys.gTCounter = w.sys.gTCounter + delta (w.record .two).state := by
        intro s2 q e1 e2 e3 hw
        subst hw
        refine ⟨e2.trans hd.1, rfl, fun u => by cases u <;> rfl, ?_, e3.trans hd.2.2.1⟩
        intro u hu
        cases u
        · exact e1.trans hd.2.1
        · exact absurd rfl hu
      refine ⟨.two, ?_⟩
      cases fl with
      | normal =>
        simp only [Option.some.injEq] at h
        exact key s .test rfl rfl rfl h.symm
      | thrown x =>
        simp only at h
        have hh := handler_data f x s
        rcases hh2 : handler f x s with ⟨fl2, s2⟩
        rw [hh2] at h hh
        simp only at hh
        cases fl2 <;> simp only [Option.some.injEq] at h
        · exact key s2 .test hh.1 hh.2.1 hh.2.2.1 h.symm
        · exact key s2 .aborted hh.1 hh.2.1 hh.2.2.1 h.symm
        · exact key s2 .aborted hh.1 hh.2.1 hh.2.2.1 h.symm
      | blocked => exact absurd h (by simp)
    | test =>
      right
      simp only [hp, Option.some.injEq] at h
      subst h
      have hl : (loopTest w.sys).oneData = w.sys.oneData ∧
          (loopTest w.sys).twoData = w.sys.twoData ∧
          (loopTest w.sys).gTCounter = w.sys.gTCounter := by
        simp only [loopTest]
        split_ifs <;> exact ⟨rfl, rfl, rfl⟩
      refine ⟨fun u => ?_, rfl, hl.2.2⟩
      cases u
      · exact ⟨hl.1, rfl⟩
      · exact ⟨hl.2.1, rfl⟩
    | after =>
      right
      simp only [hp, Option.some.injEq] at h
      subst h
      exact ⟨fun u => by cases u <;> exact ⟨rfl, rfl⟩, rfl, rfl⟩
    | returned => exact absurd (Or.inl hp) hr
    | aborted => exact absurd (Or.inr hp) hr

/-- Three moves of the monitor in a row, with a sink that does not throw and the lock free, are
one tick of the loop body: the moves of the program and the sequential code agree. -/
theorem monitor_moves_are_tick {D : Type} (P : Platform D) (d : Worker → Bool) (w : World D)
    (hpc : w.pc = .one) (hlock : w.sys.gLock = false) :
    run P noFaults d [.monitor, .monitor, .monitor] w =
      some { w with
        sys := (tick P noFaults w.sys).2
        pc := if (tick P noFaults w.sys).2.running then .one else .after
        log := w.log ++
          [.polled .one w.sys.oneData.state, .polled .two w.sys.twoData.state] } := by
  obtain ⟨⟨one, two, lk, c, out, r⟩, t1, t2, pc, ex, log⟩ := w
  simp only at hpc hlock
  subst hpc hlock
  have h1 := reactOne_noFaults P (⟨one, two, false, c, out, r⟩ : Sys D) rfl
  have h2 := reactTwo_noFaults P
    ({ oneData := { one with state := ack one.state }, twoData := two, gLock := false,
       gTCounter := c + delta one.state, cout := out ++ noticesOne P one, running := r } : Sys D)
    rfl
  simp only at h1 h2
  have s1 : step P noFaults d .monitor ⟨⟨one, two, false, c, out, r⟩, t1, t2, .one, ex, log⟩ =
      some ⟨{ oneData := { one with state := ack one.state }, twoData := two, gLock := false,
              gTCounter := c + delta one.state, cout := out ++ noticesOne P one, running := r },
            t1, t2, .two, ex, log ++ [.polled .one one.state]⟩ := by
    simp only [step, h1]
    rfl
  have s2 : step P noFaults d .monitor
      ⟨{ oneData := { one with state := ack one.state }, twoData := two, gLock := false,
         gTCounter := c + delta one.state, cout := out ++ noticesOne P one, running := r },
       t1, t2, .two, ex, log ++ [.polled .one one.state]⟩ =
      some ⟨{ oneData := { one with state := ack one.state },
              twoData := { two with state := ack two.state }, gLock := false,
              gTCounter := c + delta one.state + delta two.state,
              cout := out ++ noticesOne P one ++ noticesTwo P two, running := r },
            t1, t2, .test, ex, log ++ [.polled .one one.state] ++ [.polled .two two.state]⟩ := by
    simp only [step, h2]
    rfl
  rw [tick_noFaults P _ rfl]
  simp only [run]
  rw [s1, Option.some_bind, s2, Option.some_bind]
  simp [step]

/-- A property that holds at the start and is kept by every move holds after every schedule. -/
theorem run_keeps {D : Type} (P : Platform D) (f : Faults) (d : Worker → Bool)
    (I : World D → Prop) (hstep : ∀ m w w', step P f d m w = some w' → I w → I w') :
    ∀ (ms : List Move) (w w' : World D), run P f d ms w = some w' → I w → I w' := by
  intro ms
  induction ms with
  | nil =>
    intro w w' h hi
    simp only [run, Option.some.injEq] at h
    exact h ▸ hi
  | cons m ms ih =>
    intro w w' h hi
    simp only [run] at h
    cases hs : step P f d m w with
    | none => simp [hs] at h
    | some w1 =>
      rw [hs] at h
      exact ih w1 w' h (hstep m w w1 hs hi)

/-! ## The history of one task under the polling discipline -/

/-- A state outside `Started`, `Milestone`, `Done` is its own write-back and moves no counter. -/
theorem ack_idle (st : State) (h : st.pending = false) : ack st = st ∧ delta st = 0 := by
  cases st <;> simp_all [State.pending, ack, delta]

/-- The state left by the monitor never awaits acknowledgment. -/
theorem lastAck_pending (l : List State) : (lastAck l).pending = false := by
  unfold lastAck
  cases l.getLast? with
  | none => rfl
  | some st => exact (ack_pending st).1

/-- After one more reaction the state left by the monitor is its write-back. -/
theorem lastAck_concat (l : List State) (st : State) : lastAck (l ++ [st]) = ack st := by
  simp [lastAck]

/-- The stores of a worker in a lengthened history. -/
theorem writes_append (t : Worker) (l l' : List Event) :
    writes t (l ++ l') = writes t l ++ writes t l' := by
  simp [writes, List.filterMap_append]

/-- The reactions for a task in a lengthened history. -/
theorem acks_append (t : Worker) (l l' : List Event) :
    acks t (l ++ l') = acks t l ++ acks t l' := by
  simp [acks, List.filterMap_append]

/-- What an operation of worker `u` adds to the stores and the reactions of task `t`. -/
theorem events_of_operation {D : Type} (t u : Worker) (e : Effect D) :
    acks t (e.events u) = [] ∧
    (u ≠ t → writes t (e.events u) = []) ∧
    (e.isStore = false → writes t (e.events u) = [] ∧ stores [e] = [] ∧
      ∀ r : ThreadData D, (e.apply r).state = r.state) ∧
    (∀ st, e = .storeState st → writes u (e.events u) = [st] ∧ stores [e] = [st] ∧
      ∀ r : ThreadData D, (e.apply r).state = st) := by
  refine ⟨?_, ?_, ?_, ?_⟩
  · cases e <;> simp [Effect.events, acks]
  · intro h
    cases e <;> simp [Effect.events, writes, h]
  · intro h
    cases e <;> simp_all [Effect.events, writes, stores, Effect.isStore, Effect.apply]
  · intro st h
    subst h
    simp [Effect.events, writes, stores, Effect.apply]

/-- What a poll of the record of `u` adds to the stores and the reactions of task `t`. -/
theorem events_of_poll (t u : Worker) (st : State) :
    writes t [.polled u st] = [] ∧
    (u ≠ t → acks t [.polled u st] = []) ∧
    (st.pending = false → acks t [.polled u st] = []) ∧
    (st.pending = true → acks u [.polled u st] = [st]) := by
  refine ⟨by simp [writes], ?_, ?_, ?_⟩
  · intro h
    simp [acks, h]
  · intro h
    simp [acks, h]
  · intro h
    simp [acks, h]

/-- The stores of a program split at its first operation. -/
theorem stores_cons {D : Type} (e : Effect D) (rest : List (Effect D)) :
    stores (e :: rest) = stores [e] ++ stores rest := by
  cases e <;> simp [stores]

/-- Under the polling discipline for `t`, every move keeps the history of `t` in order. -/
theorem tracked_step {D : Type} (P : Platform D) (f : Faults) (d : Worker → Bool) (t : Worker)
    (hd : d t = true) (m : Move) (w w' : World D) (h : step P f d m w = some w')
    (ht : Tracked t w) : Tracked t w' := by
  obtain ⟨h1, h2⟩ := ht
  rcases step_summary P f d m w w' h with
    ⟨u, e, rest, hl, hg, hr, htd, hlog, hoth, -⟩ | ⟨u, hr, hlog, htd, hoth, -⟩ | ⟨hsame, hlog, -⟩
  · by_cases hu : u = t
    · subst hu
      have hev := events_of_operation u u e
      rw [hl, stores_cons] at h1
      cases hs : e.isStore with
      | false =>
        obtain ⟨hw, hst, hap⟩ := hev.2.2.1 hs
        unfold Tracked
        rw [hlog, writes_append, acks_append, hev.1, hw, htd, hr, hap]
        rw [hst] at h1
        simpa using ⟨h1, h2⟩
      | true =>
        obtain ⟨st, rfl⟩ : ∃ st, e = .storeState st := by
          cases e <;> simp_all [Effect.isStore]
        obtain ⟨hw, hst, hap⟩ := hev.2.2.2 st rfl
        have hnp := hg hd hs
        rw [hst] at h1
        have hpend : st.pending = true := by
          have hm : st ∈ writes u w.log ++ ([st] ++ stores rest) := by simp
          rw [h1] at hm
          simp only [List.mem_cons, List.mem_singleton, List.not_mem_nil, or_false] at hm
          rcases hm with rfl | rfl | rfl <;> rfl
        rcases h2 with ⟨h2a, -⟩ | ⟨h2a, -⟩
        · unfold Tracked
          rw [hlog, writes_append, acks_append, hev.1, hw, htd, hr, hap]
          refine ⟨by simpa using h1, Or.inr ⟨hpend, ?_⟩⟩
          simp [h2a]
        · rw [hnp] at h2a
          exact absurd h2a (by simp)
    · have hev := events_of_operation t u e
      unfold Tracked
      rw [hlog, writes_append, acks_append, hev.1, hev.2.1 hu, (hoth t (Ne.symm hu)).1,
        (hoth t (Ne.symm hu)).2]
      simpa using ⟨h1, h2⟩
  · by_cases hu : u = t
    · subst hu
      have hev := events_of_poll u u (w.record u).state
      unfold Tracked
      rw [hlog, writes_append, acks_append, hev.1, htd, hr]
      cases hp : (w.record u).state.pending with
      | false =>
        rw [hev.2.2.1 hp, (ack_idle _ hp).1]
        simpa using ⟨h1, h2⟩
      | true =>
        rw [hev.2.2.2 hp]
        rcases h2 with ⟨-, h2b⟩ | ⟨-, h2b⟩
        · rw [h2b, lastAck_pending] at hp
          exact absurd hp (by simp)
        · refine ⟨by simpa using h1, Or.inl ⟨by simpa using h2b, ?_⟩⟩
          simp [lastAck_concat]
    · have hev := events_of_poll t u (w.record u).state
      unfold Tracked
      rw [hlog, writes_append, acks_append, hev.1, hev.2.1 hu, htd, hoth t (Ne.symm hu)]
      simpa using ⟨h1, h2⟩
  · unfold Tracked
    rw [hlog, (hsame t).1, (hsame t).2]
    exact ⟨h1, h2⟩

/-- At the start of the loop, with both records in `None`, the history of each task is in
order. -/
theorem tracked_boot {D : Type} (P : Platform D) (e1 e2 : D) (k1 k2 : Clocks) (t : Worker) :
    Tracked t (World.boot P e1 e2 k1 k2) := by
  cases t <;>
    exact ⟨rfl, Or.inl ⟨rfl, rfl⟩⟩

/-- Under the polling discipline for `t`, the history of `t` is in order after every
schedule. -/
theorem tracked_run {D : Type} (P : Platform D) (f : Faults) (d : Worker → Bool) (t : Worker)
    (hd : d t = true) (e1 e2 : D) (k1 k2 : Clocks) (ms : List Move) (w : World D)
    (h : run P f d ms (World.boot P e1 e2 k1 k2) = some w) : Tracked t w :=
  run_keeps P f d (Tracked t) (fun m w w' hs hi => tracked_step P f d t hd m w w' hs hi)
    ms _ w h (tracked_boot P e1 e2 k1 k2 t)

/-- The table of the histories of a task under the polling discipline: what the worker has
stored, which reactions have fired, the state in the record, what is still to be stored. -/
theorem tracked_cases {wr ak rem : List State} {st : State}
    (h1 : wr ++ rem = [.Started, .Milestone, .Done])
    (h2 : (wr = ak ∧ st = lastAck ak) ∨ (st.pending = true ∧ wr = ak ++ [st])) :
    (wr, ak, st, rem) ∈
      [ (([] : List State), ([] : List State), State.None, [State.Started, .Milestone, .Done]),
        ([.Started], [], .Started, [.Milestone, .Done]),
        ([.Started], [.Started], .Running, [.Milestone, .Done]),
        ([.Started, .Milestone], [.Started], .Milestone, [.Done]),
        ([.Started, .Milestone], [.Started, .Milestone], .Running, [.Done]),
        ([.Started, .Milestone, .Done], [.Started, .Milestone], .Done, []),
        ([.Started, .Milestone, .Done], [.Started, .Milestone, .Done], .Complete, []) ] := by
  rcases h2 with ⟨rfl, rfl⟩ | ⟨_, rfl⟩
  · rcases wr with _ | ⟨a, _ | ⟨b, _ | ⟨c, _ | ⟨d, wr⟩⟩⟩⟩ <;>
      simp only [List.nil_append, List.cons_append, List.cons.injEq, List.nil_eq,
        List.cons_ne_nil, and_false, false_and, and_true, List.append_eq_nil] at h1
    · subst h1
      simp [lastAck]
    · obtain ⟨rfl, rfl⟩ := h1
      simp [lastAck, ack]
    · obtain ⟨rfl, rfl, rfl⟩ := h1
      simp [lastAck, ack]
    · obtain ⟨rfl, rfl, rfl, rfl⟩ := h1
      simp [lastAck, ack]
  · rcases ak with _ | ⟨a, _ | ⟨b, _ | ⟨c, ak⟩⟩⟩ <;>
      simp only [List.nil_append, List.cons_append, List.cons.injEq, List.nil_eq,
        List.cons_ne_nil, and_false, false_and, and_true, List.append_eq_nil, List.append_assoc,
        List.singleton_append] at h1
    · obtain ⟨rfl, rfl⟩ := h1
      simp
    · obtain ⟨rfl, rfl, rfl⟩ := h1
      simp
    · obtain ⟨rfl, rfl, rfl, rfl⟩ := h1
      simp

/-- The table of histories, for a task of the program. -/
theorem tracked_table {D : Type} (t : Worker) (w : World D) (ht : Tracked t w) :
    (writes t w.log, acks t w.log, (w.record t).state, stores (w.todo t)) ∈
      [ (([] : List State), ([] : List State), State.None, [State.Started, .Milestone, .Done]),
        ([.Started], [], .Started, [.Milestone, .Done]),
        ([.Started], [.Started], .Running, [.Milestone, .Done]),
        ([.Started, .Milestone], [.Started], .Milestone, [.Done]),
        ([.Started, .Milestone], [.Started, .Milestone], .Running, [.Done]),
        ([.Started, .Milestone, .Done], [.Started, .Milestone], .Done, []),
        ([.Started, .Milestone, .Done], [.Started, .Milestone, .Done], .Complete, []) ] :=
  tracked_cases ht.1 ht.2

/-! ## The counter under the polling discipline -/

/-- A reaction moves the counter by as much as it moves the record in or out of `Running`,
`Milestone`, `Done`. -/
theorem live_ack (st : State) : live (ack st) = live st + delta st := by
  cases st <;> simp [live, ack, delta]

/-- When every worker keeps the polling discipline, every move keeps the counter in agreement
with the records. -/
theorem counted_step {D : Type} (P : Platform D) (f : Faults) (m : Move) (w w' : World D)
    (h : step P f everyone m w = some w') (h1 : Tracked .one w) (h2 : Tracked .two w)
    (hc : Counted w) : Counted w' := by
  have hrec : ∀ x : World D, x.record .one = x.sys.oneData ∧ x.record .two = x.sys.twoData :=
    fun x => ⟨rfl, rfl⟩
  unfold Counted at hc ⊢
  rcases step_summary P f everyone m w w' h with
    ⟨u, e, rest, hl, hg, hr, -, -, hoth, hcnt⟩ | ⟨u, hr, -, -, hoth, hcnt⟩ | ⟨hsame, -, hcnt⟩
  · have hu : Tracked u w := by cases u <;> assumption
    have hlive : live (w'.record u).state = live (w.record u).state := by
      rw [hr]
      cases hs : e.isStore with
      | false => rw [((events_of_operation u u e).2.2.1 hs).2.2]
      | true =>
        obtain ⟨st, rfl⟩ : ∃ st, e = .storeState st := by
          cases e <;> simp_all [Effect.isStore]
        have hnp := hg rfl hs
        have htab := tracked_table u w hu
        rw [hl] at htab
        simp only [stores, List.filterMap_cons, List.mem_cons, Prod.mk.injEq,
          List.mem_singleton, List.not_mem_nil, or_false] at htab
        simp only [Effect.apply]
        rcases htab with h | h | h | h | h | h | h <;>
          obtain ⟨-, -, hst, hrem⟩ := h <;> rw [hst] at hnp ⊢ <;>
          simp_all [State.pending, live]
    cases u
    · rw [← (hrec w').1, ← (hrec w').2, hlive, (hoth .two (by decide)).1, hcnt, hc]
      rfl
    · rw [← (hrec w').1, ← (hrec w').2, hlive, (hoth .one (by decide)).1, hcnt, hc]
      rfl
  · have hlive : live (w'.record u).state = live (w.record u).state + delta (w.record u).state := by
      rw [hr]
      exact live_ack _
    cases u
    · rw [← (hrec w').1, ← (hrec w').2, hlive, hoth .two (by decide), hcnt, hc]
      simp only [(hrec w).1, (hrec w).2]
      ring
    · rw [← (hrec w').1, ← (hrec w').2, hlive, hoth .one (by decide), hcnt, hc]
      simp only [(hrec w).1, (hrec w).2]
      ring
  · rw [← (hrec w').1, ← (hrec w').2, (hsame .one).1, (hsame .two).1, hcnt, hc]
    rfl

/-- When every worker keeps the polling discipline, after every schedule the histories of both
tasks are in order and the counter agrees with the records. -/
theorem counted_run {D : Type} (P : Platform D) (f : Faults) (e1 e2 : D) (k1 k2 : Clocks)
    (ms : List Move) (w : World D) (h : run P f everyone ms (World.boot P e1 e2 k1 k2) = some w) :
    Tracked .one w ∧ Tracked .two w ∧ Counted w :=
  run_keeps P f everyone (fun x => Tracked .one x ∧ Tracked .two x ∧ Counted x)
    (fun m x x' hs hi =>
      ⟨tracked_step P f everyone .one rfl m x x' hs hi.1,
       tracked_step P f everyone .two rfl m x x' hs hi.2.1,
       counted_step P f m x x' hs hi.1 hi.2.1 hi.2.2⟩)
    ms _ w h
    ⟨tracked_boot P e1 e2 k1 k2 .one, tracked_boot P e1 e2 k1 k2 .two, rfl⟩

/-- Under the polling discipline a task is between its `Started` reaction and its `Done`
reaction exactly when its record is in `Running`, `Milestone` or `Done`. -/
theorem inFlight_eq_live {D : Type} (t : Worker) (w : World D) (ht : Tracked t w) :
    inFlight t w.log = live (w.record t).state := by
  have htab := tracked_table t w ht
  simp only [List.mem_cons, Prod.mk.injEq, List.mem_singleton, List.not_mem_nil,
    or_false] at htab
  unfold inFlight fired
  rcases htab with h | h | h | h | h | h | h <;>
    obtain ⟨-, hak, hst, -⟩ := h <;> rw [hak, hst] <;> simp [live]

/-! ## Program order and the output -/

/-- The operation at position `k` of a worker's program and what it does to a record: the
append is at position 2, the store of `elapsed` at position 5, the stores of `Started`,
`Milestone`, `Done` at positions 0, 3, 6. -/
theorem program_drop {D : Type} (P : Platform D) (k1 k2 : Clocks) (t : Worker) (k : Nat)
    (e : Effect D) (rest : List (Effect D)) (h : (program P k1 k2 t).drop k = e :: rest) :
    k ≤ 6 ∧ rest = (program P k1 k2 t).drop (k + 1) ∧
    (∀ r : ThreadData D,
      (e.apply r).msg = (if k = 2 then r.msg ++ milestoneLine P k1 k2 t else r.msg) ∧
      (e.apply r).elapsed = (if k = 5 then total P k1 k2 t else r.elapsed) ∧
      (e.apply r).state =
        (if k = 0 then .Started else if k = 3 then .Milestone else if k = 6 then .Done
         else r.state)) := by
  cases t <;> rcases k with _ | _ | _ | _ | _ | _ | _ | k <;>
    simp [program, TaskOne, TaskTwo] at h <;>
    obtain ⟨rfl, rfl⟩ := h <;>
    simp [program, TaskOne, TaskTwo, Effect.apply, milestoneLine, total]

/-- Every move keeps program order, whatever the sink does and whether or not the polling
discipline is kept. -/
theorem inOrder_step {D : Type} (P : Platform D) (f : Faults) (d : Worker → Bool)
    (k1 k2 : Clocks) (t : Worker) (m : Move) (w w' : World D)
    (h : step P f d m w = some w') (hi : InOrder P k1 k2 t w) : InOrder P k1 k2 t w' := by
  obtain ⟨k, hk, hmsg, hel, hmi, hdo⟩ := hi
  rcases step_summary P f d m w w' h with
    ⟨u, e, rest, hl, -, hr, htd, -, hoth, -⟩ | ⟨u, hr, -, htd, hoth, -⟩ | ⟨hsame, -, -⟩
  · by_cases hu : u = t
    · subst hu
      rw [hk] at hl
      obtain ⟨hk6, hrest, hap⟩ := program_drop P k1 k2 u k e rest hl
      obtain ⟨h1, h2, h3⟩ := hap (w.record u)
      refine ⟨k + 1, by rw [htd, hrest], ?_, ?_, ?_, ?_⟩
      · rw [hr, h1, hmsg]
        split_ifs <;> first | omega | simp
      · intro h6
        rw [hr, h2]
        split_ifs with h5
        · rfl
        · exact hel (by omega)
      · rw [hr, h3]
        intro hm
        split_ifs at hm with a b c
        · omega
        · have := hmi hm
          omega
      · rw [hr, h3]
        intro hm
        split_ifs at hm with a b c
        · omega
        · have := hdo hm
          omega
    · refine ⟨k, by rw [(hoth t (Ne.symm hu)).2]; exact hk, ?_, ?_, ?_, ?_⟩ <;>
        rw [(hoth t (Ne.symm hu)).1] <;> assumption
  · by_cases hu : u = t
    · subst hu
      have hne : ack (w.record u).state ≠ .Milestone ∧ ack (w.record u).state ≠ .Done := by
        cases (w.record u).state <;> simp [ack]
      refine ⟨k, by rw [htd]; exact hk, by rw [hr]; exact hmsg, by rw [hr]; exact hel, ?_, ?_⟩
      · rw [hr]
        intro hm
        exact absurd hm hne.1
      · rw [hr]
        intro hm
        exact absurd hm hne.2
    · refine ⟨k, by rw [htd]; exact hk, ?_, ?_, ?_, ?_⟩ <;> rw [hoth t (Ne.symm hu)] <;>
        assumption
  · refine ⟨k, by rw [(hsame t).2]; exact hk, ?_, ?_, ?_, ?_⟩ <;> rw [(hsame t).1] <;>
      assumption

/-- The texts written by a reaction on the record of `u`, as far as they belong to task `t`:
those due for the reaction when `u` is `t` and the state awaited acknowledgment, none
otherwise; provided the buffer holds the milestone line when the state is `Milestone` and
`elapsed` holds the total when the state is `Done`. -/
theorem notices_lines {D : Type} (P : Platform D) (k1 k2 : Clocks) (t u : Worker)
    (r : ThreadData D) (hm : r.state = .Milestone → r.msg = milestoneLine P k1 k2 u)
    (hd : r.state = .Done → r.elapsed = total P k1 k2 u) :
    linesOf (label t) (notices P u r) =
      (acks t [.polled u r.state]).flatMap (expected P k1 k2 t) := by
  obtain ⟨st, e, m⟩ := r
  cases st
  case Milestone =>
    obtain rfl : m = milestoneLine P k1 k2 u := hm rfl
    cases t <;> cases u <;>
      simp [linesOf, notices, noticesOne, noticesTwo, acks, expected, label, owned,
        State.pending, milestoneLine, String.toList, List.isPrefixOf]
  case Done =>
    obtain rfl : e = total P k1 k2 u := hd rfl
    cases t <;> cases u <;>
      simp [linesOf, notices, noticesOne, noticesTwo, acks, expected, label, owned,
        State.pending, total, String.toList, List.isPrefixOf]
  all_goals
    cases t <;> cases u <;>
      simp [linesOf, notices, noticesOne, noticesTwo, acks, expected, label, owned,
        State.pending, String.toList, List.isPrefixOf]

/-- What one move does to the output when the sink does not throw and the lock is free. -/
theorem step_output {D : Type} (P : Platform D) (d : Worker → Bool) (m : Move)
    (w w' : World D) (h : step P noFaults d m w = some w') (hlock : w.sys.gLock = false) :
    w.pc ≠ .returned ∧ w'.sys.gLock = false ∧
    ((∃ (u : Worker) (e : Effect D), w'.log = w.log ++ e.events u ∧
        w'.sys.cout = w.sys.cout ∧ w'.pc = w.pc ∧ w'.exitCode = w.exitCode) ∨
     (∃ u, w'.log = w.log ++ [.polled u (w.record u).state] ∧
        w'.sys.cout = w.sys.cout ++ notices P u (w.record u) ∧
        w'.pc ≠ .returned ∧ w'.exitCode = w.exitCode) ∨
     (w'.log = w.log ∧ w'.sys.cout = w.sys.cout ∧ w'.pc ≠ .returned ∧
        w'.exitCode = w.exitCode) ∨
     (w'.log = w.log ∧ w'.sys.cout = w.sys.cout ++ ["App Finished\n"] ∧
        w'.pc = .returned ∧ w'.exitCode = some 0)) := by
  unfold step at h
  split_ifs at h with hr
  refine ⟨fun hret => hr (Or.inl hret), ?_⟩
  cases m with
  | worker t =>
    simp only at h
    cases hl : w.todo t with
    | nil => simp [hl] at h
    | cons e rest =>
      simp only [hl] at h
      split_ifs at h with hg
      simp only [Option.some.injEq] at h
      subst h
      refine ⟨by cases t <;> exact hlock, Or.inl ⟨t, e, ?_, ?_, ?_, ?_⟩⟩ <;> cases t <;> rfl
  | monitor =>
    simp only at h
    cases hp : w.pc with
    | one =>
      simp only [hp, reactOne_noFaults P w.sys hlock, Option.some.injEq] at h
      subst h
      exact ⟨hlock, Or.inr (Or.inl ⟨.one, rfl, rfl, by simp, rfl⟩)⟩
    | two =>
      simp only [hp, reactTwo_noFaults P w.sys hlock, Option.some.injEq] at h
      subst h
      exact ⟨hlock, Or.inr (Or.inl ⟨.two, rfl, rfl, by simp, rfl⟩)⟩
    | test =>
      simp only [hp, Option.some.injEq] at h
      subst h
      have hl : (loopTest w.sys).gLock = w.sys.gLock ∧ (loopTest w.sys).cout = w.sys.cout := by
        simp only [loopTest]
        split_ifs <;> exact ⟨rfl, rfl⟩
      refine ⟨by rw [← hlock]; exact hl.1, Or.inr (Or.inr (Or.inl ⟨rfl, hl.2, ?_, rfl⟩))⟩
      simp only
      split_ifs <;> simp
    | after =>
      simp only [hp, Option.some.injEq] at h
      subst h
      exact ⟨hlock, Or.inr (Or.inr (Or.inr ⟨rfl, rfl, rfl, rfl⟩))⟩
    | returned => exact absurd (Or.inl hp) hr
    | aborted => exact absurd (Or.inr hp) hr

/-- With a sink that does not throw, every move keeps the output in line with the reactions
that fired. -/
theorem output_step {D : Type} (P : Platform D) (d : Worker → Bool) (k1 k2 : Clocks)
    (m : Move) (w w' : World D) (h : step P noFaults d m w = some w')
    (hi : ∀ t, InOrder P k1 k2 t w) (ho : Output P k1 k2 w) : Output P k1 k2 w' := by
  obtain ⟨hlock, hlines, -⟩ := ho
  obtain ⟨hpc, hlock', hcases⟩ := step_output P d m w w' h hlock
  refine ⟨hlock', ?_⟩
  rcases hcases with ⟨u, e, hlog, hout, hpc', hex⟩ | ⟨u, hlog, hout, hpc', hex⟩ |
    ⟨hlog, hout, hpc', hex⟩ | ⟨hlog, hout, hpc', hex⟩
  · refine ⟨fun t => ?_, fun hret => absurd (hpc'.symm.trans hret) hpc⟩
    rw [hout, hlog, acks_append, (events_of_operation t u e).1, List.append_nil]
    exact hlines t
  · refine ⟨fun t => ?_, fun hret => absurd hret hpc'⟩
    obtain ⟨k, -, hmsg, hel, hmi, hdo⟩ := hi u
    have hn := notices_lines P k1 k2 t u (w.record u)
      (fun hs => by
        have := hmi hs
        rw [hmsg, if_neg (by omega)])
      (fun hs => hel (by have := hdo hs; omega))
    rw [hout, hlog, acks_append, List.flatMap_append, linesOf, List.filter_append, ← linesOf,
      ← linesOf, hlines t, hn]
  · refine ⟨fun t => ?_, fun hret => absurd hret hpc'⟩
    rw [hout, hlog]
    exact hlines t
  · refine ⟨fun t => ?_, fun _ => ⟨by rw [hout]; simp, hex⟩⟩
    rw [hout, hlog, linesOf, List.filter_append, ← linesOf, hlines t]
    cases t <;> simp [label, owned, String.toList, List.isPrefixOf]

/-- At the start of the loop program order holds and the output is in line with the (empty)
history. -/
theorem output_boot {D : Type} (P : Platform D) (e1 e2 : D) (k1 k2 : Clocks) :
    (∀ t, InOrder P k1 k2 t (World.boot P e1 e2 k1 k2)) ∧
    Output P k1 k2 (World.boot P e1 e2 k1 k2) := by
  refine ⟨fun t => ⟨0, ?_, ?_, ?_, ?_, ?_⟩, rfl, fun t => ?_, ?_⟩
  · cases t <;> rfl
  · cases t <;> rfl
  · intro h
    omega
  · cases t <;> simp [World.boot, World.record]
  · cases t <;> simp [World.boot, World.record]
  · cases t <;> simp [World.boot, linesOf, label, owned, String.toList, List.isPrefixOf, acks]
  · simp [World.boot]

/-- With a sink that does not throw, after every schedule program order holds and the output
is in line with the reactions that fired. -/
theorem output_run {D : Type} (P : Platform D) (d : Worker → Bool) (e1 e2 : D)
    (k1 k2 : Clocks) (ms : List Move) (w : World D)
    (h : run P noFaults d ms (World.boot P e1 e2 k1 k2) = some w) :
    (∀ t, InOrder P k1 k2 t w) ∧ Output P k1 k2 w :=
  run_keeps P noFaults d (fun x => (∀ t, InOrder P k1 k2 t x) ∧ Output P k1 k2 x)
    (fun m x x' hs hi =>
      ⟨fun t => inOrder_step P noFaults d k1 k2 t m x x' hs (hi.1 t),
       output_step P d k1 k2 m x x' hs hi.1 hi.2⟩)
    ms _ w h (output_boot P e1 e2 k1 k2)

/-! ## The reaction table -/

/-- C1. One monitor reaction on a record follows the state-transition table, for `oneData` and
for `twoData`, for every counter value: on `Started` the counter goes up by one, `Running` is
written back and the line `<Label> Running` is written; on `Milestone` the counter stays,
`Running` is written back and the message buffer is passed to `coutMsg`, which writes its text
when the lock is free; on `Done` the counter goes down by one, `Complete` is written back and the
lines `<Label> Took <elapsed>ms` and `<Label> Complete` are written in this order; on `Error`,
`None`, `Ready`, `Paused`, `Running`, `Complete` nothing changes and nothing is written. -/
theorem reaction_follows_table {D : Type} (P : Platform D) (s : Sys D) :
    ((s.oneData.state = .Started →
        reactOne P noFaults s =
          (.normal, { s with
            gTCounter := s.gTCounter + 1
            oneData := { s.oneData with state := .Running }
            cout := s.cout ++ ["TaskOne Running\n"] })) ∧
     (s.oneData.state = .Milestone →
        reactOne P noFaults s =
          coutMsg noFaults .oneMsg { s.oneData with state := .Running }
            { s with oneData := { s.oneData with state := .Running } } ∧
        (s.gLock = false →
          reactOne P noFaults s =
            (.normal, { s with
              oneData := { s.oneData with state := .Running }
              cout := s.cout ++ [s.oneData.msg] }))) ∧
     (s.oneData.state = .Done →
        reactOne P noFaults s =
          (.normal, { s with
            gTCounter := s.gTCounter - 1
            oneData := { s.oneData with state := .Complete }
            cout := s.cout ++
              ["TaskOne Took " ++ P.fmt s.oneData.elapsed ++ "ms\n", "TaskOne Complete\n"] })) ∧
     (s.oneData.state ∈ [State.Error, .None, .Ready, .Paused, .Running, .Complete] →
        reactOne P noFaults s = (.normal, s))) ∧
    ((s.twoData.state = .Started →
        reactTwo P noFaults s =
          (.normal, { s with
            gTCounter := s.gTCounter + 1
            twoData := { s.twoData with state := .Running }
            cout := s.cout ++ ["TaskTwo Running\n"] })) ∧
     (s.twoData.state = .Milestone →
        reactTwo P noFaults s =
          coutMsg noFaults .twoMsg { s.twoData with state := .Running }
            { s with twoData := { s.twoData with state := .Running } } ∧
        (s.gLock = false →
          reactTwo P noFaults s =
            (.normal, { s with
              twoData := { s.twoData with state := .Running }
              cout := s.cout ++ [s.twoData.msg] }))) ∧
     (s.twoData.state = .Done →
        reactTwo P noFaults s =
          (.normal, { s with
            gTCounter := s.gTCounter - 1
            twoData := { s.twoData with state := .Complete }
            cout := s.cout ++
              ["TaskTwo Took " ++ P.fmt s.twoData.elapsed ++ "ms\n", "TaskTwo Complete\n"] })) ∧
     (s.twoData.state ∈ [State.Error, .None, .Ready, .Paused, .Running, .Complete] →
        reactTwo P noFaults s = (.normal, s))) := by
  obtain ⟨⟨st1, e1, m1⟩, ⟨st2, e2, m2⟩, lk, c, out, r⟩ := s
  refine ⟨⟨?_, ?_, ?_, ?_⟩, ⟨?_, ?_, ?_, ?_⟩⟩
  · intro h
    simp only at h
    subst h
    simp [reactOne, put, noFaults]
  · intro h
    simp only at h
    subst h
    refine ⟨by simp [reactOne], ?_⟩
    intro hl
    simp only at hl
    subst hl
    simp [reactOne, coutMsg, put, noFaults]
  · intro h
    simp only at h
    subst h
    simp [reactOne, put, noFaults]
  · intro h
    simp only at h
    cases st1 <;> simp_all [reactOne]
  · intro h
    simp only at h
    subst h
    simp [reactTwo, put, noFaults]
  · intro h
    simp only at h
    subst h
    refine ⟨by simp [reactTwo], ?_⟩
    intro hl
    simp only at hl
    subst hl
    simp [reactTwo, coutMsg, put, noFaults]
  · intro h
    simp only at h
    subst h
    simp [reactTwo, put, noFaults]
  · intro h
    simp only at h
    cases st2 <;> simp_all [reactTwo]

/-- C1, at concrete records: task one observed in `Done` with the counter at `2`, task two
observed in `Started`. -/
theorem reaction_follows_table_witness :
    reactOne demo noFaults (sampleSys .Done .Started 2) =
        (.normal, { sampleSys .Done .Started 2 with
          gTCounter := 2 - 1
          oneData := { sampleOne .Done with state := .Complete }
          cout := [] ++ ["TaskOne Took " ++ demo.fmt 4000 ++ "ms\n", "TaskOne Complete\n"] }) ∧
    reactTwo demo noFaults (sampleSys .Done .Started 2) =
        (.normal, { sampleSys .Done .Started 2 with
          gTCounter := 2 + 1
          twoData := { sampleTwo .Started with state := .Running }
          cout := [] ++ ["TaskTwo Running\n"] }) :=
  ⟨(reaction_follows_table demo (sampleSys .Done .Started 2)).1.2.2.1 rfl,
   (reaction_follows_table demo (sampleSys .Done .Started 2)).2.1 rfl⟩

/-! ## Ticks without worker writes -/

/-- C4. With the lock free and no worker writing in between, a first tick runs to its end and
a second tick right after it changes nothing and writes nothing, for every state of the two
records and every counter value: after a tick neither record is in `Started`, `Milestone` or
`Done`, and a tick on records outside these three states performs no action and no write-back,
it only repeats the counter test. -/
theorem second_tick_changes_nothing {D : Type} (P : Platform D) (one two : ThreadData D)
    (c : Int) (out : List String) (r : Bool) :
    (tick P noFaults ⟨one, two, false, c, out, r⟩).1 = .normal ∧
    tick P noFaults (tick P noFaults ⟨one, two, false, c, out, r⟩).2 =
      (.normal, (tick P noFaults ⟨one, two, false, c, out, r⟩).2) ∧
    (tick P noFaults ⟨one, two, false, c, out, r⟩).2.oneData.state.pending = false ∧
    (tick P noFaults ⟨one, two, false, c, out, r⟩).2.twoData.state.pending = false ∧
    (∀ s : Sys D, s.oneData.state.pending = false → s.twoData.state.pending = false →
      tick P noFaults s = (.normal, loopTest s)) := by
  have key : ∀ s : Sys D, s.oneData.state.pending = false →
      s.twoData.state.pending = false → tick P noFaults s = (.normal, loopTest s) := by
    intro s h1 h2
    simp only [tick, tryBody, reactOne_idle P noFaults s h1, reactTwo_idle P noFaults s h2]
  have hp := ack_pending one.state
  have hq := ack_pending two.state
  rw [tick_noFaults P _ rfl]
  refine ⟨rfl, ?_, ?_, ?_, ?_⟩
  · rw [key _ (by simp only [loopTest]; split_ifs <;> exact hp.1)
      (by simp only [loopTest]; split_ifs <;> exact hq.1), loopTest_idem]
  · simp only [loopTest]
    split_ifs <;> exact hp.1
  · simp only [loopTest]
    split_ifs <;> exact hq.1
  · exact key

/-- C4, at concrete records: both records outside `Started`, `Milestone`, `Done`. -/
theorem second_tick_changes_nothing_witness :
    tick demo noFaults (sampleSys .Running .Complete 1) =
      (.normal, loopTest (sampleSys .Running .Complete 1)) :=
  (second_tick_changes_nothing demo (sampleOne .None) (sampleTwo .None) 0 [] true).2.2.2.2
    (sampleSys .Running .Complete 1) rfl rfl

/-! ## Faults inside a tick -/

/-- C8, as stated, fails.  Record one is in `Milestone`, record two in `Started`, the counter at
`1`, and the statement inside `coutMsg( oneData )` throws `std::bad_alloc`: the first reaction
has written `Running` back and holds the lock, the handler writes the text of the exception, and
the tick ends without looking at task two: its record is still in `Started`, it has not been
counted and no `TaskTwo Running` line was written, although the second `switch` run from the
data the first one left would have acknowledged and counted it.  And at the claim's own
example, a stream set to throw at the write of `TaskOne Running`, the write of the handler
throws as well: the exception leaves the loop and the counter test is not reached. -/
theorem fault_in_one_skips_two :
    reactOne demo faultOneMsg (sampleSys .Milestone .Started 1) =
      (.thrown "std::bad_alloc",
        { sampleSys .Milestone .Started 1 with
          oneData := sampleOne .Running, gLock := true }) ∧
    tick demo faultOneMsg (sampleSys .Milestone .Started 1) =
      (.normal,
        { sampleSys .Milestone .Started 1 with
          oneData := sampleOne .Running, gLock := true, cout := ["std::bad_alloc"] }) ∧
    (tick demo faultOneMsg (sampleSys .Milestone .Started 1)).2.twoData.state = .Started ∧
    (tick demo faultOneMsg (sampleSys .Milestone .Started 1)).2.gTCounter = 1 ∧
    (reactTwo demo faultOneMsg
      (reactOne demo faultOneMsg (sampleSys .Milestone .Started 1)).2).2.twoData.state =
      .Running ∧
    (reactTwo demo faultOneMsg
      (reactOne demo faultOneMsg (sampleSys .Milestone .Started 1)).2).2.gTCounter = 2 ∧
    tick demo faultStream (sampleSys .Started .Started 0) =
      (.thrown "basic_ios::clear",
        { sampleSys .Started .Started 0 with
          gTCounter := 1, oneData := sampleOne .Running }) := by
  refine ⟨?_, ?_, ?_, ?_, ?_, ?_, ?_⟩ <;> decide

/-- C8, amended. A `std::exception` thrown by a reaction is caught inside the loop, and when
the handler's own write does not throw, the text of the exception is appended to the output and
the tick reaches the counter test.  When it is the first reaction that throws, the rest of the
`try` block is left out: the record of task two is exactly as it was and the counter has moved
by the first reaction only.  When it is the second reaction that throws, what the first
reaction did stays in place.  When the write of the handler throws as well, the exception
leaves the loop without the counter test. -/
theorem fault_is_caught_in_tick {D : Type} (P : Platform D) (f : Faults) (s : Sys D) :
    (∀ w s1, reactOne P f s = (.thrown w, s1) → f .handler = none →
      tick P f s = (.normal, loopTest { s1 with cout := s1.cout ++ [w] }) ∧
      (tick P f s).2.cout = s1.cout ++ [w] ∧
      (tick P f s).2.twoData = s.twoData ∧
      (tick P f s).2.gTCounter = s.gTCounter + delta s.oneData.state) ∧
    (∀ s1 w s2, reactOne P f s = (.normal, s1) → reactTwo P f s1 = (.thrown w, s2) →
      f .handler = none →
      tick P f s = (.normal, loopTest { s2 with cout := s2.cout ++ [w] }) ∧
      (tick P f s).2.cout = s2.cout ++ [w] ∧
      (tick P f s).2.oneData = s1.oneData) ∧
    (∀ w s1 x, tryBody P f s = (.thrown w, s1) → f .handler = some x →
      tick P f s = (.thrown x, s1)) := by
  have hl : ∀ x : Sys D, (loopTest x).oneData = x.oneData ∧ (loopTest x).twoData = x.twoData ∧
      (loopTest x).cout = x.cout ∧ (loopTest x).gTCounter = x.gTCounter := by
    intro x
    simp only [loopTest]
    split_ifs <;> exact ⟨rfl, rfl, rfl, rfl⟩
  refine ⟨?_, ?_, ?_⟩
  · intro w s1 h hf
    have hd := reactOne_data P f s
    rw [h] at hd
    have ht : tick P f s = (.normal, loopTest { s1 with cout := s1.cout ++ [w] }) := by
      simp only [tick, tryBody, h, handler, put, hf]
    rw [ht]
    exact ⟨rfl, (hl _).2.2.1, (hl _).2.1.trans hd.2.1, (hl _).2.2.2.trans hd.2.2.1⟩
  · intro s1 w s2 h1 h2 hf
    have hd := reactTwo_data P f s1
    rw [h2] at hd
    have ht : tick P f s = (.normal, loopTest { s2 with cout := s2.cout ++ [w] }) := by
      simp only [tick, tryBody, h1, h2, handler, put, hf]
    rw [ht]
    exact ⟨rfl, (hl _).2.2.1, (hl _).1.trans hd.2.1⟩
  · intro w s1 x h hf
    simp only [tick, h, handler, put, hf]

/-- C8 amended, at concrete records: the statement inside `coutMsg( oneData )` throws and the
handler's write does not. -/
theorem fault_is_caught_in_tick_witness :
    reactOne demo faultOneMsg (sampleSys .Milestone .Started 1) =
      (.thrown "std::bad_alloc",
        { sampleSys .Milestone .Started 1 with
          oneData := sampleOne .Running, gLock := true }) ∧
    faultOneMsg .handler = none ∧
    (tick demo faultOneMsg (sampleSys .Milestone .Started 1)).2.cout =
      [] ++ ["std::bad_alloc"] ∧
    (tick demo faultOneMsg (sampleSys .Milestone .Started 1)).2.twoData =
      (sampleSys .Milestone .Started 1).twoData :=
  ⟨rfl, rfl,
   ((fault_is_caught_in_tick demo faultOneMsg (sampleSys .Milestone .Started 1)).1
      "std::bad_alloc" _ rfl rfl).2.1,
   ((fault_is_caught_in_tick demo faultOneMsg (sampleSys .Milestone .Started 1)).1
      "std::bad_alloc" _ rfl rfl).2.2.1⟩

/-! ## What the monitor writes -/

/-- C10, as stated, fails in its last clause: the counter is not the only state the two
reactions share.  Both records are in `Milestone` and the statement inside
`coutMsg( oneData )` throws: the first reaction leaves the counter and the record of task two
as they were and leaves `gLock` held; on this data the second reaction waits for the lock for
ever, while on the same record and the same counter with the lock free it flushes its buffer;
so the tick after the faulty one never ends.  And with a sound sink the second reaction appends
to the very stream the first one wrote to. -/
theorem lock_and_stream_are_shared :
    reactOne demo faultOneMsg (sampleSys .Milestone .Milestone 2) =
      (.thrown "std::bad_alloc",
        { sampleSys .Milestone .Milestone 2 with
          oneData := sampleOne .Running, gLock := true }) ∧
    (reactTwo demo faultOneMsg
      { sampleSys .Milestone .Milestone 2 with
        oneData := sampleOne .Running, gLock := true }).1 = .blocked ∧
    reactTwo demo faultOneMsg
      { sampleSys .Milestone .Milestone 2 with
        oneData := sampleOne .Running, gLock := false } =
      (.normal,
        { sampleSys .Milestone .Milestone 2 with
          oneData := sampleOne .Running, twoData := sampleTwo .Running
          cout := ["TaskTwo 50 Percent at 2000ms\n"] }) ∧
    (tick demo faultOneMsg
      (tick demo faultOneMsg (sampleSys .Milestone .Milestone 2)).2).1 = .blocked ∧
    (reactTwo demo noFaults
      (reactOne demo noFaults (sampleSys .Milestone .Milestone 2)).2).2.cout =
      ["TaskOne 50 Percent at 2000ms\n", "TaskTwo 50 Percent at 2000ms\n"] := by
  refine ⟨?_, ?_, ?_, ?_, ?_⟩ <;> decide

/-- C10, amended. Whatever the sink does, a reaction changes of its own record only `state`,
and only by the write-back of the table, so the only values the monitor stores are `Running` and
`Complete`; it leaves `elapsed` and the message buffer of both records alone; it leaves the
other record and `running` alone and does not depend on them; `coutMsg` changes no record and
not the counter; the same holds for a whole tick.  What the two reactions share is the counter
and the console sink: the new counter is the old one moved by the table's amount for the record
at hand; both reactions only append to the stream; and both go through `gLock` in `coutMsg`,
which waits while the lock is held, leaves it held after a throw and free otherwise, so after a
reaction the lock is held exactly when it was held before or the flush of this reaction
threw. -/
theorem monitor_writes_only_acknowledgments {D : Type} (P : Platform D) (f : Faults)
    (s : Sys D) :
    ((reactOne P f s).2.oneData = { s.oneData with state := ack s.oneData.state } ∧
     (reactOne P f s).2.twoData = s.twoData ∧
     (reactOne P f s).2.gTCounter = s.gTCounter + delta s.oneData.state) ∧
    ((reactTwo P f s).2.twoData = { s.twoData with state := ack s.twoData.state } ∧
     (reactTwo P f s).2.oneData = s.oneData ∧
     (reactTwo P f s).2.gTCounter = s.gTCounter + delta s.twoData.state) ∧
    (∀ st, ack st = st ∨ ack st = .Running ∨ ack st = .Complete) ∧
    (∀ (r : ThreadData D) (b : Bool),
      reactOne P f { s with twoData := r, running := b } =
        ((reactOne P f s).1, { (reactOne P f s).2 with twoData := r, running := b }) ∧
      reactTwo P f { s with oneData := r, running := b } =
        ((reactTwo P f s).1, { (reactTwo P f s).2 with oneData := r, running := b })) ∧
    (∀ site (data : ThreadData D),
      (coutMsg f site data s).2.oneData = s.oneData ∧
      (coutMsg f site data s).2.twoData = s.twoData ∧
      (coutMsg f site data s).2.gTCounter = s.gTCounter ∧
      coutMsg f site data s =
        (if s.gLock then (.blocked, s)
         else
           match f site with
           | some w => (.thrown w, { s with gLock := true })
           | none => (.normal, { s with cout := s.cout ++ [data.msg] }))) ∧
    ((∃ out, (reactOne P f s).2.cout = s.cout ++ out) ∧
     (∃ out, (reactTwo P f s).2.cout = s.cout ++ out) ∧
     (reactOne P f s).2.gLock =
       (s.gLock || (decide (s.oneData.state = .Milestone) && (f .oneMsg).isSome)) ∧
     (reactTwo P f s).2.gLock =
       (s.gLock || (decide (s.twoData.state = .Milestone) && (f .twoMsg).isSome))) ∧
    ((tick P f s).2.oneData = { s.oneData with state := ack s.oneData.state } ∧
     ((tick P f s).2.twoData = { s.twoData with state := ack s.twoData.state } ∨
      (tick P f s).2.twoData = s.twoData)) := by
  refine ⟨?_, ?_, ?_, ?_, ?_, ?_, ?_⟩
  · exact ⟨(reactOne_data P f s).1, (reactOne_data P f s).2.1, (reactOne_data P f s).2.2.1⟩
  · exact ⟨(reactTwo_data P f s).1, (reactTwo_data P f s).2.1, (reactTwo_data P f s).2.2.1⟩
  · intro st
    cases st <;> simp [ack]
  · intro r b
    obtain ⟨⟨st1, e1, m1⟩, ⟨st2, e2, m2⟩, lk, c, out, q⟩ := s
    constructor
    · cases st1 <;> simp only [reactOne, put, coutMsg]
      case Started => cases f .oneRunning <;> simp
      case Milestone => cases lk <;> cases f .oneMsg <;> simp
      case Done => cases f .oneTook <;> cases f .oneComplete <;> simp
    · cases st2 <;> simp only [reactTwo, put, coutMsg]
      case Started => cases f .twoRunning <;> simp
      case Milestone => cases lk <;> cases f .twoMsg <;> simp
      case Done => cases f .twoTook <;> cases f .twoComplete <;> simp
  · intro site data
    obtain ⟨one, two, lk, c, out, q⟩ := s
    cases lk <;> simp only [coutMsg, put] <;> cases f site <;> simp
  · obtain ⟨⟨st1, e1, m1⟩, ⟨st2, e2, m2⟩, lk, c, out, q⟩ := s
    refine ⟨?_, ?_, ?_, ?_⟩
    · cases st1 <;> simp only [reactOne, put, coutMsg]
      case Started => cases f .oneRunning <;> simp
      case Milestone => cases lk <;> cases f .oneMsg <;> simp
      case Done => cases f .oneTook <;> cases f .oneComplete <;> simp
      all_goals exact ⟨[], by simp⟩
    · cases st2 <;> simp only [reactTwo, put, coutMsg]
      case Started => cases f .twoRunning <;> simp
      case Milestone => cases lk <;> cases f .twoMsg <;> simp
      case Done => cases f .twoTook <;> cases f .twoComplete <;> simp
      all_goals exact ⟨[], by simp⟩
    · cases st1 <;> simp only [reactOne, put, coutMsg]
      case Started => cases f .oneRunning <;> simp
      case Milestone => cases lk <;> cases f .oneMsg <;> simp
      case Done => cases f .oneTook <;> cases f .oneComplete <;> simp
      all_goals simp
    · cases st2 <;> simp only [reactTwo, put, coutMsg]
      case Started => cases f .twoRunning <;> simp
      case Milestone => cases lk <;> cases f .twoMsg <;> simp
      case Done => cases f .twoTook <;> cases f .twoComplete <;> simp
      all_goals simp
  · have h1 := reactOne_data P f s
    have h2 := reactTwo_data P f (reactOne P f s).2
    have hl : ∀ x : Sys D, (loopTest x).oneData = x.oneData ∧ (loopTest x).twoData = x.twoData := by
      intro x
      simp only [loopTest]
      split_ifs <;> exact ⟨rfl, rfl⟩
    have hh : ∀ (w : String) (x : Sys D),
        (match handler f w x with
          | (.normal, s2) => (Flow.normal, loopTest s2)
          | r => r).2.oneData = x.oneData ∧
        (match handler f w x with
          | (.normal, s2) => (Flow.normal, loopTest s2)
          | r => r).2.twoData = x.twoData := by
      intro w x
      simp only [handler, put]
      cases f .handler <;> simp [(hl _).1, (hl _).2]
    simp only [tick, tryBody]
    rcases hr : reactOne P f s with ⟨fl, s1⟩
    rw [hr] at h1 h2
    cases fl with
    | normal =>
      simp only
      rcases hr2 : reactTwo P f s1 with ⟨fl2, s2⟩
      rw [hr2] at h2
      simp only at h1 h2
      cases fl2 with
      | normal =>
        simp only [(hl s2).1, (hl s2).2]
        exact ⟨by rw [h2.2.1, h1.1], Or.inl (by rw [h2.1, h1.2.1])⟩
      | thrown w =>
        simp only [(hh w s2).1, (hh w s2).2]
        exact ⟨by rw [h2.2.1, h1.1], Or.inl (by rw [h2.1, h1.2.1])⟩
      | blocked =>
        simp only
        exact ⟨by rw [h2.2.1, h1.1], Or.inl (by rw [h2.1, h1.2.1])⟩
    | thrown w =>
      simp only [(hh w s1).1, (hh w s1).2]
      exact ⟨h1.1, Or.inr h1.2.1⟩
    | blocked =>
      simp only
      exact ⟨h1.1, Or.inr h1.2.1⟩

/-! ## The workers' programs -/

/-- C7. Both workers perform on their record exactly these operations in this order: store
`Started`, append the one milestone line `<Label> 50 Percent at <d>ms` to the message buffer,
store `Milestone`, store the total duration in `elapsed`, store `Done`.  So the states stored
are `Started`, `Milestone`, `Done` and no others, the state is never read, the buffer is written
before `Milestone` is stored and never after, `elapsed` is written before `Done` is stored, and a
worker left alone ends with state `Done`, the total duration and the buffer extended by its
line. -/
theorem worker_operations {D : Type} (P : Platform D) (a b c : Nat) (r : ThreadData D) :
    ((TaskOne P a b c).filter Effect.onRecord =
        [ .storeState .Started,
          .appendMsg ("TaskOne 50 Percent at " ++ P.fmt (P.count a b) ++ "ms\n"),
          .storeState .Milestone,
          .storeElapsed (P.count a c),
          .storeState .Done ] ∧
     stores (TaskOne P a b c) = [.Started, .Milestone, .Done] ∧
     (TaskOne P a b c).all (fun e => !e.isLoadState) = true ∧
     ((TaskOne P a b c).drop 4).all (fun e => !e.isAppend) = true ∧
     runAlone (TaskOne P a b c) r =
       { state := .Done, elapsed := P.count a c
         msg := r.msg ++ ("TaskOne 50 Percent at " ++ P.fmt (P.count a b) ++ "ms\n") }) ∧
    ((TaskTwo P a b c).filter Effect.onRecord =
        [ .storeState .Started,
          .appendMsg ("TaskTwo 50 Percent at " ++ P.fmt (P.count a b) ++ "ms\n"),
          .storeState .Milestone,
          .storeElapsed (P.count a c),
          .storeState .Done ] ∧
     stores (TaskTwo P a b c) = [.Started, .Milestone, .Done] ∧
     (TaskTwo P a b c).all (fun e => !e.isLoadState) = true ∧
     ((TaskTwo P a b c).drop 4).all (fun e => !e.isAppend) = true ∧
     runAlone (TaskTwo P a b c) r =
       { state := .Done, elapsed := P.count a c
         msg := r.msg ++ ("TaskTwo 50 Percent at " ++ P.fmt (P.count a b) ++ "ms\n") }) := by
  refine ⟨⟨rfl, rfl, rfl, rfl, rfl⟩, ⟨rfl, rfl, rfl, rfl, rfl⟩⟩

/-! ## When the loop ends -/

/-- C2, evaluated on the code. From both records in `None` and the counter at `0`, a tick that
runs before any worker has stored `Started` finds `gTCounter < 1` and clears `running`, on every
platform and whatever the sink does: the loop ends after this one tick, `main` writes
`App Finished` and returns `0` with both records still in `None` and neither worker having
performed anything.  And when worker two never performs anything while worker one runs to its
end, the loop ends as soon as task one is `Complete`, with the record of task two still in
`None`. -/
theorem loop_exits_without_waiting :
    (∀ (D : Type) (P : Platform D) (f : Faults) (e1 e2 : D) (k1 k2 : Clocks),
      tick P f (World.boot P e1 e2 k1 k2).sys =
        (.normal, { (World.boot P e1 e2 k1 k2).sys with running := false })) ∧
    (tick demo noFaults demoBoot.sys).2.running = false ∧
    (mainLoop demo noFaults 2 demoBoot.sys).map (fun r => (r.1.cout, r.2)) =
      some (["loop running\n", "App Finished\n"], 0) ∧
    (run demo noFaults free earlyExit demoBoot).map
        (fun w => (w.pc, w.exitCode, w.sys.cout)) =
      some (.returned, some 0, ["loop running\n", "App Finished\n"]) ∧
    (run demo noFaults free earlyExit demoBoot).map
        (fun w => (w.sys.oneData.state, w.sys.twoData.state, w.todoOne.length,
          w.todoTwo.length)) =
      some (.None, .None, 7, 7) ∧
    (run demo noFaults everyone oneAlone demoBoot).map
        (fun w => (w.pc, w.exitCode, w.sys.oneData.state, w.sys.twoData.state,
          w.todoTwo.length)) =
      some (.returned, some 0, .Complete, .None, 7) := by
  refine ⟨?_, ?_, ?_, ?_, ?_, ?_⟩
  · intro D P f e1 e2 k1 k2
    rfl
  all_goals decide

/-! ## Each reaction fires once -/

/-- C3, evaluated on the code. Worker one stores `Started` right after the monitor has looked at
its record in the first tick; the tick ends with the counter at `0`, so the counter test ends
the loop and `main` returns.  The polling discipline is kept, the execution is over (no move is
possible any more), yet the store of `Started` was never observed: no reaction has fired for
task one and its record still holds `Started`. -/
theorem store_unseen_after_loop_end :
    (run demo noFaults everyone lateStart demoBoot).map
        (fun w => (w.pc, writes .one w.log, acks .one w.log, fired .one .Started w.log,
          w.sys.oneData.state)) =
      some (.returned, [.Started], [], 0, .Started) ∧
    (run demo noFaults everyone lateStart demoBoot).map
        (fun w => ((step demo noFaults everyone .monitor w).isSome,
          (step demo noFaults everyone (.worker .one) w).isSome,
          (step demo noFaults everyone (.worker .two) w).isSome)) =
      some (false, false, false) := by
  refine ⟨?_, ?_⟩ <;> decide

/-- What the acknowledgments guarantee for as long as the loop runs. For every task whose
worker keeps the polling discipline, whatever the other worker does and however many ticks the
loop runs: the reactions that have fired for the task
are, in order, an initial part of `Started`, `Milestone`, `Done`, so each of the three fires at
most once and none fires before the ones ahead of it; every store of the worker has been
acknowledged, except the latest one while the record still holds it, so none is skipped or
overwritten unseen; the texts written for the task are those due for the reactions that fired,
in order, so no notice is written twice; and once the record is `Complete` each of the three
reactions has fired exactly once. -/
theorem reactions_fire_once_in_order {D : Type} (P : Platform D) (d : Worker → Bool)
    (t : Worker) (hd : d t = true) (e1 e2 : D) (k1 k2 : Clocks) (ms : List Move) (w : World D)
    (h : run P noFaults d ms (World.boot P e1 e2 k1 k2) = some w) :
    acks t w.log <+: [.Started, .Milestone, .Done] ∧
    fired t .Started w.log ≤ 1 ∧ fired t .Milestone w.log ≤ 1 ∧ fired t .Done w.log ≤ 1 ∧
    writes t w.log =
      acks t w.log ++ (if (w.record t).state.pending then [(w.record t).state] else []) ∧
    linesOf (label t) w.sys.cout = (acks t w.log).flatMap (expected P k1 k2 t) ∧
    ((w.record t).state = .Complete →
      acks t w.log = [.Started, .Milestone, .Done] ∧
      fired t .Started w.log = 1 ∧ fired t .Milestone w.log = 1 ∧ fired t .Done w.log = 1) := by
  have hout := (output_run P d e1 e2 k1 k2 ms w h).2.2.1 t
  have htab := tracked_table t w (tracked_run P noFaults d t hd e1 e2 k1 k2 ms w h)
  simp only [List.mem_cons, Prod.mk.injEq, List.mem_singleton, List.not_mem_nil,
    or_false] at htab
  unfold fired
  rcases htab with h | h | h | h | h | h | h <;>
    obtain ⟨hwr, hak, hst, -⟩ := h <;> rw [hak] at hout <;> rw [hwr, hak, hst] <;>
    simp [State.pending, List.prefix_cons_iff, hout]

/-- The guarantee of the acknowledgments on the schedule `mixedRun`: worker one keeps the
discipline, worker two does not, and task one reaches `Complete`. -/
theorem reactions_fire_once_in_order_witness :
    only .one .one = true ∧
    run demo noFaults (only .one) mixedRun (World.boot demo 0 0 clocksOne clocksTwo) =
      some mixed ∧
    (mixed.record .one).state = .Complete ∧
    acks .one mixed.log = [.Started, .Milestone, .Done] ∧
    fired .one .Started mixed.log = 1 ∧ fired .one .Milestone mixed.log = 1 ∧
    fired .one .Done mixed.log = 1 :=
  ⟨rfl, by decide, by decide,
   (reactions_fire_once_in_order demo (only .one) .one rfl 0 0 clocksOne clocksTwo mixedRun
      mixed (by decide)).2.2.2.2.2.2 (by decide)⟩

/-! ## The counter -/

/-- C5, as stated, fails: when worker one performs its whole program before the monitor polls
its record, the first reaction finds `Done` and takes the counter from `0` to `-1`, and this is
the state between the two reactions of the first tick; when both workers do so, the first tick
leaves both records `Complete` with the counter at `-2`. -/
theorem counter_negative_when_unseen :
    (run demo noFaults free (oneUnseen ++ [.monitor]) demoBoot).map
        (fun w => (w.pc, w.sys.oneData.state, w.sys.gTCounter)) =
      some (.two, .Complete, -1) ∧
    (run demo noFaults free (oneUnseen ++ twoUnseen ++ [.monitor, .monitor]) demoBoot).map
        (fun w => (w.pc, w.sys.oneData.state, w.sys.twoData.state, w.sys.gTCounter)) =
      some (.test, .Complete, .Complete, -2) := by
  decide

/-- C5, amended. From both records in `None` and the counter at `0`, when both workers keep the
polling discipline, then whatever the sink does, in every state the program reaches, between
the two reactions of a tick as well, the counter is not negative, and it is zero whenever both
records are `Complete`. -/
theorem counter_not_negative_when_polled {D : Type} (P : Platform D) (f : Faults) (e1 e2 : D)
    (k1 k2 : Clocks) (ms : List Move) (w : World D)
    (h : run P f everyone ms (World.boot P e1 e2 k1 k2) = some w) :
    0 ≤ w.sys.gTCounter ∧
    (w.sys.oneData.state = .Complete → w.sys.twoData.state = .Complete →
      w.sys.gTCounter = 0) := by
  have hc := (counted_run P f e1 e2 k1 k2 ms w h).2.2
  unfold Counted at hc
  have hl : ∀ st : State, 0 ≤ live st := fun st => by cases st <;> simp [live]
  refine ⟨by rw [hc]; exact add_nonneg (hl _) (hl _), ?_⟩
  intro h1 h2
  rw [hc, h1, h2]
  rfl

/-- C5 amended, on the state between the two reactions of the first tick, task one having just
been counted, and on the final state of `fullRun`. -/
theorem counter_not_negative_when_polled_witness :
    run demo noFaults everyone [.worker .one, .monitor] (World.boot demo 0 0 clocksOne clocksTwo) =
      some firstPoll ∧
    firstPoll.pc = .two ∧ 0 ≤ firstPoll.sys.gTCounter ∧
    finished.sys.gTCounter = 0 :=
  ⟨by decide, by decide,
   (counter_not_negative_when_polled demo noFaults 0 0 clocksOne clocksTwo
      [.worker .one, .monitor] firstPoll (by decide)).1,
   (counter_not_negative_when_polled demo noFaults 0 0 clocksOne clocksTwo fullRun finished
      (by decide)).2 (by decide) (by decide)⟩

/-- C6, as stated, fails: when worker two performs its whole program before the monitor polls
its record, the monitor performs the `Done` reaction for task two without ever having performed
its `Started` reaction; the counter is then `-1`, while no task is between its `Started`
reaction and its `Done` reaction. -/
theorem counter_differs_from_tasks_in_flight :
    (run demo noFaults free (twoUnseen ++ [.monitor, .monitor]) demoBoot).map
        (fun w => (w.sys.gTCounter, inFlight .one w.log + inFlight .two w.log,
          acks .one w.log, acks .two w.log)) =
      some (-1, 0, [], [.Done]) := by
  decide

/-- C6, amended. From both records in `None` and the counter at `0`, when both workers keep the
polling discipline (every store is polled before the next one), then whatever the sink does, in
every state the program reaches the counter is the number of tasks for which the monitor has
performed the `Started` reaction and not yet the `Done` reaction, and it is the number of
records in state `Running`, `Milestone` or `Done`. -/
theorem counter_counts_tasks_in_flight {D : Type} (P : Platform D) (f : Faults) (e1 e2 : D)
    (k1 k2 : Clocks) (ms : List Move) (w : World D)
    (h : run P f everyone ms (World.boot P e1 e2 k1 k2) = some w) :
    w.sys.gTCounter = inFlight .one w.log + inFlight .two w.log ∧
    w.sys.gTCounter = live w.sys.oneData.state + live w.sys.twoData.state := by
  obtain ⟨h1, h2, hc⟩ := counted_run P f e1 e2 k1 k2 ms w h
  refine ⟨?_, hc⟩
  rw [inFlight_eq_live .one w h1, inFlight_eq_live .two w h2]
  exact hc

/-- C6 amended, after worker one has stored `Started` and the monitor has reacted to it: the
counter is `1`, task one is in flight, its record is `Running`. -/
theorem counter_counts_tasks_in_flight_witness :
    run demo noFaults everyone [.worker .one, .monitor] (World.boot demo 0 0 clocksOne clocksTwo) =
      some firstPoll ∧
    firstPoll.sys.gTCounter = 1 ∧
    firstPoll.sys.gTCounter = inFlight .one firstPoll.log + inFlight .two firstPoll.log ∧
    firstPoll.sys.gTCounter =
      live firstPoll.sys.oneData.state + live firstPoll.sys.twoData.state :=
  ⟨by decide, by decide,
   counter_counts_tasks_in_flight demo noFaults 0 0 clocksOne clocksTwo
      [.worker .one, .monitor] firstPoll (by decide)⟩

/-! ## The output of a complete run -/

/-- C9. From both records in `None`, when both workers keep the polling discipline and the sink
does not throw: once the record of a task is `Complete`, the output texts of that task are, in
this order and each once, `<Label> Running`, `<Label> 50 Percent at <d>ms`, `<Label> Took <D>ms`,
`<Label> Complete`, for `TaskOne` and for `TaskTwo`; and once `main` has returned, `App Finished`
is the last text of the whole output and the return value is `0`. -/
theorem task_output_in_transition_order {D : Type} (P : Platform D) (e1 e2 : D)
    (k1 k2 : Clocks) (ms : List Move) (w : World D)
    (h : run P noFaults everyone ms (World.boot P e1 e2 k1 k2) = some w) :
    (w.sys.oneData.state = .Complete →
      linesOf "TaskOne" w.sys.cout =
        [ "TaskOne Running\n",
          "TaskOne 50 Percent at " ++ P.fmt (P.count k1.start k1.mid) ++ "ms\n",
          "TaskOne Took " ++ P.fmt (P.count k1.start k1.finish) ++ "ms\n",
          "TaskOne Complete\n" ]) ∧
    (w.sys.twoData.state = .Complete →
      linesOf "TaskTwo" w.sys.cout =
        [ "TaskTwo Running\n",
          "TaskTwo 50 Percent at " ++ P.fmt (P.count k2.start k2.mid) ++ "ms\n",
          "TaskTwo Took " ++ P.fmt (P.count k2.start k2.finish) ++ "ms\n",
          "TaskTwo Complete\n" ]) ∧
    (w.pc = .returned →
      w.sys.cout.getLast? = some "App Finished\n" ∧ w.exitCode = some 0) := by
  obtain ⟨-, -, hlines, hret⟩ := output_run P everyone e1 e2 k1 k2 ms w h
  have hacks : ∀ t, (w.record t).state = .Complete →
      acks t w.log = [.Started, .Milestone, .Done] := by
    intro t hc
    have htab := tracked_table t w (tracked_run P noFaults everyone t rfl e1 e2 k1 k2 ms w h)
    simp only [List.mem_cons, Prod.mk.injEq, List.mem_singleton, List.not_mem_nil,
      or_false] at htab
    rcases htab with h | h | h | h | h | h | h <;>
      obtain ⟨-, hak, hst, -⟩ := h <;> rw [hst] at hc <;>
      first | exact absurd hc (by decide) | exact hak
  refine ⟨fun hc => ?_, fun hc => ?_, hret⟩
  · have := hlines .one
    rw [hacks .one hc] at this
    simpa [label, expected] using this
  · have := hlines .two
    rw [hacks .two hc] at this
    simpa [label, expected] using this

/-- C9, on the schedule `fullRun`: both tasks run to `Complete` and `main` returns. -/
theorem task_output_in_transition_order_witness :
    run demo noFaults everyone fullRun (World.boot demo 0 0 clocksOne clocksTwo) = some finished ∧
    finished.sys.oneData.state = .Complete ∧ finished.sys.twoData.state = .Complete ∧
    finished.pc = .returned ∧
    linesOf "TaskOne" finished.sys.cout =
      [ "TaskOne Running\n",
        "TaskOne 50 Percent at " ++ demo.fmt (demo.count clocksOne.start clocksOne.mid) ++ "ms\n",
        "TaskOne Took " ++ demo.fmt (demo.count clocksOne.start clocksOne.finish) ++ "ms\n",
        "TaskOne Complete\n" ] ∧
    finished.sys.cout.getLast? = some "App Finished\n" ∧ finished.exitCode = some 0 :=
  ⟨by decide, by decide, by decide, by decide,
   (task_output_in_transition_order demo 0 0 clocksOne clocksTwo fullRun finished
      (by decide)).1 (by decide),
   (task_output_in_transition_order demo 0 0 clocksOne clocksTwo fullRun finished
      (by decide)).2.2 (by decide)⟩

end Threads
